import Mathlib

/-!
# Verification of the auto-dj transition engine against its specification

Shallow embedding, in Lean 4, of the parts of the `auto-dj` Python worker
that the specification's claims are about, together with theorems settling
each claim.  All audio sample values and times are modelled as exact
rationals (`ℚ`); the Python sources compute with binary floats, and every
claim under study is about the exact-arithmetic behaviour of the code.

Conventions used throughout:

* `pyInt` models Python's `int(x)` conversion (truncation toward zero).
* Quantities that the sources obtain as `10 ** (db / 20)` (linear peak
  values derived from a decibel figure) are irrational reals; the
  embeddings take the *linear* value as an explicit parameter instead, and
  each theorem quantifies over it (restricted to the positive values that
  `10 ** (db / 20)` can actually take, where that matters).
* RMS values (square roots of mean squares) are embedded through their
  squares: `sqrt` is strictly monotone on nonnegative reals, so every
  Boolean comparison of RMS values in the sources has the same outcome as
  the corresponding comparison of squared RMS values, which are rational.
-/

/-- Python's `int(x)` conversion: truncation toward zero. -/
def pyInt (q : ℚ) : ℤ := if 0 ≤ q then ⌊q⌋ else -⌊-q⌋

/-- `np.linspace(a, b, n)` evaluated at index `k` (`0 ≤ k < n`):
`n` evenly spaced values from `a` to `b`, endpoints included.
For `n ≤ 1` numpy yields the single value `a` (index 0). -/
def linspace (a b : ℚ) (n : ℕ) (k : ℕ) : ℚ :=
  if n ≤ 1 then a else a + (b - a) * k / (n - 1 : ℚ)

/-! ## Time stretching — `src/apps/workers/src/mixing/beatmatch.py` -/

namespace Beatmatch

/-- The constant MAX_STRETCH_RATIO (1.08) from `beatmatch.py`. -/
def MAX_STRETCH_RATIO : ℚ := 108 / 100

/-- The constant MIN_STRETCH_RATIO (0.92) from `beatmatch.py`. -/
def MIN_STRETCH_RATIO : ℚ := 92 / 100

/-- `calculate_stretch_ratio(source_bpm, target_bpm)` from `beatmatch.py`
(lines 116–151): among the normal, half-time and double-time ratios, pick
the first one (in the order normal, half, double, as in the Python list)
whose distance to `1.0` is minimal; report whether it lies between
the constants MIN_STRETCH_RATIO and MAX_STRETCH_RATIO. -/
def calculate_stretch_ratio (source_bpm target_bpm : ℚ) : ℚ × Bool :=
  let ratio := target_bpm / source_bpm
  let half_ratio := (target_bpm / 2) / source_bpm
  let double_ratio := (target_bpm * 2) / source_bpm
  let best_ratio :=
    if |ratio - 1| ≤ |half_ratio - 1| then
      if |ratio - 1| ≤ |double_ratio - 1| then ratio
      else double_ratio
    else
      if |half_ratio - 1| ≤ |double_ratio - 1| then half_ratio
      else double_ratio
  (best_ratio,
    decide ( MIN_STRETCH_RATIO ≤ best_ratio ∧ best_ratio ≤ MAX_STRETCH_RATIO))

/-- The ratio clamping performed by `time_stretch` (`beatmatch.py`
lines 54–56): the ratio clamped from below by MIN_STRETCH_RATIO and
from above by MAX_STRETCH_RATIO.
The actual resampling is an opaque `pyrubberband` port; only the clamped
ratio it is invoked with is modelled. -/
def time_stretch_clamp (stretch_ratio : ℚ) : ℚ :=
  max MIN_STRETCH_RATIO (min MAX_STRETCH_RATIO stretch_ratio)

/-- `stretch_to_bpm(audio, sr, source_bpm, target_bpm)` from `beatmatch.py`
(lines 154–200), restricted to its numeric content: the ratio actually
applied to the audio (after `calculate_stretch_ratio` and clamping) and
the returned `actual_bpm = source_bpm * clamped_ratio`. -/
def stretch_to_bpm (source_bpm target_bpm : ℚ) : ℚ × ℚ :=
  let ratio := (calculate_stretch_ratio source_bpm target_bpm).1
  let clamped_ratio := time_stretch_clamp ratio
  (clamped_ratio, source_bpm * clamped_ratio)

end Beatmatch

/-! ## Harmonic compatibility — `src/apps/workers/src/theory/camelot.py` -/

namespace Theory

/-- A parsed Camelot code: wheel position `num` (1–12 for the 24 valid
codes) and mode letter (`true` = `A` / minor, `false` = `B` / major).
`calculate_harmonic_compatibility` parses its string arguments into this
data (`num_a = int(camelot_a[:-1])`, `mode_a = camelot_a[-1]`); the string
parsing itself (`get_camelot_from_key`) is not needed by the claims. -/
structure CamelotCode where
  num : ℕ
  modeA : Bool
deriving DecidableEq

/-- `calculate_harmonic_compatibility` from `theory/camelot.py`
(lines 228–352), after key parsing: the cascade of cases over the circular
distance `distance = min(|num_a − num_b|, 12 − |num_a − num_b|)` and mode
equality, returning the first matching score.  Equality of the two Camelot
strings is equality of the parsed `(num, mode)` pairs. -/
def calculate_harmonic_compatibility (a b : CamelotCode) : ℕ :=
  let raw_distance : ℕ := ((a.num : ℤ) - (b.num : ℤ)).natAbs
  let distance : ℕ := min raw_distance (12 - raw_distance)
  let same_mode : Bool := a.modeA == b.modeA
  if a = b then 100
  else if distance = 1 ∧ same_mode then 95
  else if a.num = b.num ∧ ¬same_mode then 90
  else if distance = 1 ∧ ¬same_mode then 80
  else if distance = 7 ∧ same_mode then 75
  else if distance = 2 ∧ same_mode then 70
  else if distance = 5 ∧ same_mode then 70
  else if distance = 2 ∧ ¬same_mode then 60
  else if distance = 3 ∧ same_mode then 50
  else 30

end Theory

/-! ## Rule-based fallback planner — `src/apps/workers/src/llm/planner.py` -/

namespace Planner

/-- Transition types appearing in plans. -/
inductive TransitionType where
  | STEM_BLEND | CROSSFADE | HARD_CUT | FILTER_SWEEP | ECHO_OUT
deriving DecidableEq

/-- The part of a fallback plan the claim is about: chosen type, duration
in bars, and whether a reverb tail effect is attached to track A. -/
structure FallbackChoice where
  ptype : TransitionType
  duration_bars : ℕ
  reverb_tail_a : Bool
deriving DecidableEq

/-- `bpm_delta_pct` as computed by `_fallback_plan` (`planner.py`
line 126): `abs(bpm_a - bpm_b) / bpm_a * 100 if bpm_a > 0 else 0`. -/
def bpm_delta_pct (bpm_a bpm_b : ℚ) : ℚ :=
  if 0 < bpm_a then |bpm_a - bpm_b| / bpm_a * 100 else 0

/-- `_fallback_plan` from `llm/planner.py` (lines 113–228), restricted to
the decision logic the claim is about (type, bars, HARD_CUT reverb
effect).  `harmonic` is `compatibility.get("harmonic", 50)`; the stem
phase tables attached to STEM_BLEND plans do not affect the choice. -/
def fallback_plan (harmonic bpm_a bpm_b : ℚ) : FallbackChoice :=
  let d := bpm_delta_pct bpm_a bpm_b
  if harmonic < 60 ∨ 6 < d then ⟨.HARD_CUT, 0, true⟩
  else if 85 ≤ harmonic ∧ d ≤ 2 then ⟨.STEM_BLEND, 16, false⟩
  else if 70 ≤ harmonic ∧ d ≤ 4 then ⟨.STEM_BLEND, 8, false⟩
  else ⟨.CROSSFADE, 8, false⟩

/-- Modelled from the spec: the first-match fallback table of § 4.7 /
claim C3, over the harmonic score `h` and BPM delta percentage `d`.  This
is the *specified* behaviour, written independently of the code, for
comparison with `fallback_plan`. -/
def spec_fallback_table (h d : ℚ) : FallbackChoice :=
  if 85 ≤ h ∧ d ≤ 2 then ⟨.STEM_BLEND, 16, false⟩
  else if 70 ≤ h ∧ d ≤ 4 then ⟨.STEM_BLEND, 8, false⟩
  else if 60 ≤ h ∧ d ≤ 5 then ⟨.CROSSFADE, 8, false⟩
  else if 50 ≤ h ∧ d ≤ 6 then ⟨.FILTER_SWEEP, 8, false⟩
  else ⟨.HARD_CUT, 0, true⟩

/-- The table the code actually implements (the amended claim C3):
`HARD_CUT` whenever the harmonic score is below 60 *or* the BPM delta
exceeds 6 %, then the two STEM_BLEND rows, then CROSSFADE for everything
else; no FILTER_SWEEP row exists. -/
def code_fallback_table (h d : ℚ) : FallbackChoice :=
  if h < 60 ∨ 6 < d then ⟨.HARD_CUT, 0, true⟩
  else if 85 ≤ h ∧ d ≤ 2 then ⟨.STEM_BLEND, 16, false⟩
  else if 70 ≤ h ∧ d ≤ 4 then ⟨.STEM_BLEND, 8, false⟩
  else ⟨.CROSSFADE, 8, false⟩

end Planner

/-! ## Limiter — `src/apps/workers/src/mixing/mix_generator.py` and
`draft_transition_generator.py` -/

namespace Effects

/-- Peak absolute sample value, `np.max(np.abs(audio))`, padded with 0 for
the empty buffer (numpy raises there; all uses are on nonempty buffers and
every sample magnitude is nonnegative, so the padding is inert). -/
def peakAbs (audio : List ℚ) : ℚ :=
  audio.foldr (fun x m => max |x| m) 0

/-- `apply_limiter(audio, threshold_db)` from `mix_generator.py`
(lines 402–415); `_apply_limiter` in `draft_transition_generator.py`
(lines 1161–1169) is the same function.  The sources first compute
`threshold = 10 ** (threshold_db / 20)`; that linear threshold (always
positive) is taken as the parameter here.  If the peak exceeds the
threshold the whole buffer is scaled by `threshold / peak`. -/
def apply_limiter (audio : List ℚ) (threshold : ℚ) : List ℚ :=
  let peak := peakAbs audio
  if threshold < peak then audio.map (fun x => x * (threshold / peak))
  else audio

end Effects

/-! ## Normalizers — `draft_transition_generator.py` and
`src/apps/workers/src/utils/audio.py` -/

namespace Draft

/-- `_normalize_audio(audio, target_db)` from
`draft_transition_generator.py` (lines 1172–1200): return the input
unchanged when the peak is zero; scale down by `target_peak / peak` when
the peak exceeds the target; otherwise leave the buffer alone (explicitly
no boost).  As with the limiter, the linear `target_peak = 10 **
(target_db / 20)` is the parameter. -/
def normalize_audio (audio : List ℚ) (target_peak : ℚ) : List ℚ :=
  let peak := Effects.peakAbs audio
  if peak = 0 then audio
  else if target_peak < peak then audio.map (fun x => x * (target_peak / peak))
  else audio

end Draft

namespace AudioUtils

/-- `normalize_audio(audio, target_db)` from `utils/audio.py`
(lines 178–193): whenever the peak is positive, rescale the whole buffer
so that its peak equals the target — scaling *up* as well as down. -/
def normalize_audio (audio : List ℚ) (target_peak : ℚ) : List ℚ :=
  let peak := Effects.peakAbs audio
  if 0 < peak then audio.map (fun x => x * (target_peak / peak))
  else audio

end AudioUtils

/-! ## Key conversion — `src/apps/workers/src/analysis/camelot.py` -/

namespace AnalysisCamelot

/-- Python `str.strip()`: drop whitespace from both ends. -/
def pyStrip (s : String) : String :=
  String.mk (((s.data.dropWhile Char.isWhitespace).reverse.dropWhile
    Char.isWhitespace).reverse)

/-- Python `str.upper()` (ASCII keys only appear here). -/
def pyUpper (s : String) : String := String.mk (s.data.map Char.toUpper)

/-- The `KEY_TO_CAMELOT` dictionary of `analysis/camelot.py`
(lines 10–47), in source order.  All keys are distinct, so association
list lookup agrees with Python dict lookup. -/
def KEY_TO_CAMELOT : List (String × String) :=
  [("C", "8B"), ("G", "9B"), ("D", "10B"), ("A", "11B"), ("E", "12B"),
   ("B", "1B"), ("F#", "2B"), ("Gb", "2B"), ("Db", "3B"), ("C#", "3B"),
   ("Ab", "4B"), ("G#", "4B"), ("Eb", "5B"), ("D#", "5B"), ("Bb", "6B"),
   ("A#", "6B"), ("F", "7B"),
   ("Am", "8A"), ("Em", "9A"), ("Bm", "10A"), ("F#m", "11A"),
   ("Gbm", "11A"), ("C#m", "12A"), ("Dbm", "12A"), ("G#m", "1A"),
   ("Abm", "1A"), ("D#m", "2A"), ("Ebm", "2A"), ("A#m", "3A"),
   ("Bbm", "3A"), ("Fm", "4A"), ("Cm", "5A"), ("Gm", "6A"), ("Dm", "7A")]

/-- The 24 valid Camelot codes. -/
def CAMELOT_CODES : List String :=
  ["1A", "2A", "3A", "4A", "5A", "6A", "7A", "8A", "9A", "10A", "11A", "12A",
   "1B", "2B", "3B", "4B", "5B", "6B", "7B", "8B", "9B", "10B", "11B", "12B"]

/-- `key[0].upper() + key[1:].lower()` — the capitalisation retry of
`key_to_camelot`; `none` when `key` is empty (Python raises `IndexError`
on `key[0]`). -/
def capitalizeKey (s : String) : Option String :=
  match s.data with
  | [] => none
  | c :: cs => some (String.mk (c.toUpper :: cs.map Char.toLower))

/-- `key_to_camelot(key)` from `analysis/camelot.py` (lines 53–76).
`none` models the `IndexError` the Python raises at `key[0]` when the
stripped key is empty and not found in the dictionary. -/
def key_to_camelot (key : String) : Option String :=
  let k := pyStrip key
  match KEY_TO_CAMELOT.lookup k with
  | some v => some v
  | none =>
    match capitalizeKey k with
    | none => none
    | some ku =>
      match KEY_TO_CAMELOT.lookup ku with
      | some v => some v
      | none => some "8A"

/-- `CAMELOT_TO_KEY = {v: k for k, v in KEY_TO_CAMELOT.items()}`:
for duplicate Camelot values the *last* entry of the source dict wins,
which is lookup on the value-swapped list in reverse order. -/
def CAMELOT_TO_KEY : List (String × String) :=
  (KEY_TO_CAMELOT.map (fun p => (p.2, p.1))).reverse

/-- `camelot_to_key(camelot)` from `analysis/camelot.py` (lines 79–90). -/
def camelot_to_key (camelot : String) : String :=
  (CAMELOT_TO_KEY.lookup (pyUpper camelot)).getD "Am"

/-- Whether `key_to_camelot` recognizes the key through either dictionary
probe (direct, or after recapitalisation). -/
def keyRecognized (key : String) : Bool :=
  let k := pyStrip key
  (KEY_TO_CAMELOT.lookup k).isSome ||
    (match capitalizeKey k with
     | none => false
     | some ku => (KEY_TO_CAMELOT.lookup ku).isSome)

/-- Whether `camelot_to_key` recognizes the code. -/
def camelotRecognized (camelot : String) : Bool :=
  (CAMELOT_TO_KEY.lookup (pyUpper camelot)).isSome

end AnalysisCamelot

/-! ## Bass swap — `src/apps/workers/src/mixing/transitions/bass_swap.py` -/

namespace BassSwap

/-- A mono numpy buffer: sample values as a function of the index, with an
explicit length.  Indices `≥ size` are never read by the code; slice
assignments such as `a[x:] = 0` are modelled by updating the value
function on the corresponding index range. -/
structure PyArray where
  size : ℕ
  val : ℕ → ℚ

/-- `execute_bass_swap(bass_a, bass_b, swap_time, swap_duration, bpm, sr)`
from `bass_swap.py` (lines 29–119).  `instant = true` selects the
instant style, `instant = false` the one-bar equal-power crossfade.  The
equal-power curves of the `"1_bar"` branch are `cos(t·π/2)` and
`sin(t·π/2)` sampled on `np.linspace(0, 1, n)` — transcendental values —
so they are abstracted as the parameters `eqPowFadeOut`/`eqPowFadeIn`
(curve length, then index); everything else is exact. -/
def execute_bass_swap (eqPowFadeOut eqPowFadeIn : ℕ → ℕ → ℚ)
    (bass_a bass_b : PyArray) (swap_time : ℚ) (instant : Bool)
    (bpm : ℚ) (sr : ℕ) : PyArray × PyArray :=
  let s0 : ℤ := pyInt (swap_time * sr)
  let s1 : ℤ := if s0 < 0 then 0 else s0
  let s : ℤ := if (bass_a.size : ℤ) ≤ s1 then (bass_a.size : ℤ) - 1 else s1
  if instant then
    let fade : ℤ := pyInt ((5 / 1000 : ℚ) * sr)
    let newA : ℕ → ℚ := fun i =>
      if s + fade ≤ (i : ℤ) then 0
      else if s ≤ (i : ℤ) ∧ s + fade ≤ (bass_a.size : ℤ) then
        bass_a.val i * linspace 1 0 fade.toNat ((i : ℤ) - s).toNat
      else bass_a.val i
    let newB : ℕ → ℚ :=
      if 0 ≤ s - fade then fun i =>
        if (i : ℤ) < s - fade then 0
        else if (i : ℤ) < s then
          bass_b.val i * linspace 0 1 fade.toNat ((i : ℤ) - (s - fade)).toNat
        else bass_b.val i
      else fun i =>
        if (i : ℤ) < s then 0 else bass_b.val i
    (⟨bass_a.size, newA⟩, ⟨bass_b.size, newB⟩)
  else
    let bar : ℤ := pyInt ((60 / bpm) * 4 * sr)
    let fs : ℤ := max 0 (s - Int.ediv bar 2)
    let fe : ℤ := min (min (bass_a.size : ℤ) (bass_b.size : ℤ)) (s + Int.ediv bar 2)
    let actual : ℤ := fe - fs
    let newA : ℕ → ℚ := fun i =>
      if fe ≤ (i : ℤ) then 0
      else if fs ≤ (i : ℤ) ∧ 0 < actual then
        bass_a.val i * eqPowFadeOut actual.toNat ((i : ℤ) - fs).toNat
      else bass_a.val i
    let newB : ℕ → ℚ := fun i =>
      if (i : ℤ) < fs then 0
      else if (i : ℤ) < fe ∧ 0 < actual then
        bass_b.val i * eqPowFadeIn actual.toNat ((i : ℤ) - fs).toNat
      else bass_b.val i
    (⟨bass_a.size, newA⟩, ⟨bass_b.size, newB⟩)

/-- A stem dictionary `{drums, bass, other, vocals}`; `none` models a
`None` entry (or a missing key, which `dict.get` treats the same way). -/
structure Stems where
  drums : Option PyArray
  bass : Option PyArray
  other : Option PyArray
  vocals : Option PyArray

/-- `apply_bass_swap_to_stems(stems_a, stems_b, swap_time, swap_duration,
bpm, sr)` from `bass_swap.py` (lines 231–272): copy both stem
dictionaries (`v.copy()` — the identity on immutable values), and when
both bass stems are present replace them with the outputs of
`execute_bass_swap`; every other stem passes through unchanged. -/
def apply_bass_swap_to_stems (eqPowFadeOut eqPowFadeIn : ℕ → ℕ → ℚ)
    (stems_a stems_b : Stems) (swap_time : ℚ) (instant : Bool)
    (bpm : ℚ) (sr : ℕ) : Stems × Stems :=
  match stems_a.bass, stems_b.bass with
  | some ba, some bb =>
    let r := execute_bass_swap eqPowFadeOut eqPowFadeIn ba bb swap_time
      instant bpm sr
    ({ stems_a with bass := some r.1 }, { stems_b with bass := some r.2 })
  | some _, none => (stems_a, stems_b)
  | none, _ => (stems_a, stems_b)

end BassSwap

/-! ## Vocal clash detection and resolution —
`src/apps/workers/src/analysis/vocal_detector.py` and
`draft_transition_generator.py` -/

namespace Vocal

/-- `VocalIntensity` from `vocal_detector.py`. -/
inductive Intensity where
  | NONE | BACKGROUND | SPARSE | FULL
deriving DecidableEq

/-- One entry of a `vocal_sections` list: `{start, end, intensity}`
(durations are redundant and omitted). -/
structure VocalSection where
  startS : ℚ
  endS : ℚ
  intensity : Intensity
deriving DecidableEq

/-- A vocal detection result (`detect_vocals` output): the fields
`check_vocal_clash` and `get_vocal_free_regions` read. -/
structure VocalsData where
  has_vocals : Bool
  sections : List VocalSection

/-- `_intensity_to_score` from `vocal_detector.py` (lines 435–437). -/
def intensity_to_score : Intensity → ℕ
  | .NONE => 0
  | .BACKGROUND => 1
  | .SPARSE => 2
  | .FULL => 3

/-- Result of `check_vocal_clash` (the fields the renderer reads). -/
structure ClashResult where
  has_clash : Bool
  clash_severity : String

/-- `check_vocal_clash(vocals_a, vocals_b, transition_start_a,
transition_end_b, overlap_duration)` from `vocal_detector.py`
(lines 340–432).  `transition_end_b` is accepted but never read by the
source body.  Python's `max` over the (nonempty) score lists is a fold of
`max` seeded with `0`, which agrees because scores are nonnegative. -/
def check_vocal_clash (vocals_a vocals_b : VocalsData)
    (transition_start_a _transition_end_b overlap_duration : ℚ) :
    ClashResult :=
  if ¬(vocals_a.has_vocals = true ∧ vocals_b.has_vocals = true) then
    ⟨false, "none"⟩
  else
    let inA := vocals_a.sections.filter (fun s =>
      decide (s.startS < transition_start_a + overlap_duration) &&
      decide (transition_start_a < s.endS))
    let inB := vocals_b.sections.filter (fun s =>
      decide (s.startS < overlap_duration) && decide (0 < s.endS))
    if inA ≠ [] ∧ inB ≠ [] then
      let maxA := (inA.map (fun s => intensity_to_score s.intensity)).foldr max 0
      let maxB := (inB.map (fun s => intensity_to_score s.intensity)).foldr max 0
      let combined := maxA + maxB
      if 5 ≤ combined then ⟨true, "severe"⟩
      else if 3 ≤ combined then ⟨true, "moderate"⟩
      else if 2 ≤ combined then ⟨true, "minor"⟩
      else ⟨false, "none"⟩
    else ⟨false, "none"⟩

/-- The inter-section gaps of `get_vocal_free_regions` (the loop over
`range(len(sections) - 1)`). -/
def consecGaps (min_duration : ℚ) : List VocalSection → List (ℚ × ℚ)
  | a :: b :: rest =>
    (if min_duration ≤ b.startS - a.endS then [(a.endS, b.startS)] else []) ++
      consecGaps min_duration (b :: rest)
  | _ => []

/-- `get_vocal_free_regions(vocals, min_duration, track_duration)` from
`vocal_detector.py` (lines 440–537).  `track_duration` is always supplied
by the renderer; Python's `if track_duration:` truthiness test is
`track_duration ≠ 0`. -/
def get_vocal_free_regions (vocals : VocalsData) (min_duration : ℚ)
    (track_duration : ℚ) : List (ℚ × ℚ) :=
  if vocals.has_vocals = false then
    if track_duration ≠ 0 then [(0, track_duration)] else []
  else
    match vocals.sections with
    | [] => if track_duration ≠ 0 then [(0, track_duration)] else []
    | s0 :: rest =>
      let intro := if min_duration ≤ s0.startS then [((0 : ℚ), s0.startS)] else []
      let gaps := consecGaps min_duration (s0 :: rest)
      let lastS := (s0 :: rest).getLastD s0
      let outro :=
        if track_duration ≠ 0 ∧ min_duration ≤ track_duration - lastS.endS then
          [(lastS.endS, track_duration)]
        else []
      intro ++ gaps ++ outro

/-- The vocal-related part of an `EnrichedAnalysis`
(`_analyze_track_enriched`, `draft_transition_generator.py`
lines 184–267): the detection result, its `has_vocals` flag, and the
vocal-free regions — `get_vocal_free_regions(vocals, 4.0, duration)` when
vocals are present, the whole segment otherwise. -/
structure EnrichedAnalysis where
  vocals : VocalsData
  has_vocals : Bool
  vocal_free_regions : List (ℚ × ℚ)

/-- `_analyze_track_enriched` restricted to its vocal outputs. -/
def analyze_track_enriched (v : VocalsData) (duration : ℚ) : EnrichedAnalysis :=
  ⟨v, v.has_vocals,
   if v.has_vocals then get_vocal_free_regions v 4 duration
   else [(0, duration)]⟩

/-- Result dict of `_check_vocal_clash_and_adjust` (recommendation
strings omitted). -/
structure AdjustResult where
  has_clash : Bool
  severity : String
  adjusted_start : ℚ
  adjusted_duration : ℚ
  force_hard_cut : Bool

/-- STEP 1 of `_check_vocal_clash_and_adjust`: track B's vocal-free intro
duration — the first region starting at 0, or 0 when there is none. -/
def intro_b_of (regions : List (ℚ × ℚ)) : ℚ :=
  match regions.find? (fun r => decide (r.1 = 0)) with
  | some r => r.2 - r.1
  | none => 0

/-- STEP 2 of `_check_vocal_clash_and_adjust`: track A's vocal-free zone
at the end of the segment — the last region, when its end is within 2 s
of the maximal region end. -/
def outro_a_of (regions : List (ℚ × ℚ)) : ℚ :=
  match regions with
  | [] => 0
  | r0 :: rs =>
    let lastR := (r0 :: rs).getLastD r0
    let maxEnd := ((r0 :: rs).map Prod.snd).foldr max lastR.2
    if maxEnd - 2 ≤ lastR.2 then lastR.2 - lastR.1 else 0

/-- STEPs 4–5 of `_check_vocal_clash_and_adjust`: the severity check of
`check_vocal_clash`, with the severe / moderate adjustment ladder. -/
def vocal_steps_4_5 (analysis_a analysis_b : EnrichedAnalysis)
    (transition_start_a transition_duration bpm
     intro_b_duration outro_a_duration : ℚ) : AdjustResult :=
  let bar_duration : ℚ := 60 / bpm * 4
  let base : AdjustResult :=
    ⟨false, "none", transition_start_a, transition_duration, false⟩
  if analysis_a.has_vocals = false then base
  else
    let clash := check_vocal_clash analysis_a.vocals analysis_b.vocals
      transition_start_a transition_duration transition_duration
    if clash.has_clash then
      if clash.clash_severity = "severe" then
        let min_safe : ℚ :=
          if 0 < intro_b_duration ∨ 0 < outro_a_duration then
            min intro_b_duration outro_a_duration
          else 0
        if 4 * bar_duration ≤ min_safe then
          let ad := (pyInt (min_safe / bar_duration) : ℚ) * bar_duration
          { base with has_clash := true, severity := "severe", adjusted_duration := ad, force_hard_cut := false }
        else
          { base with has_clash := true, severity := "severe", adjusted_duration := 0, force_hard_cut := true }
      else if clash.clash_severity = "moderate" then
        let ad := min transition_duration (bar_duration * 8)
        { base with has_clash := true, severity := "moderate", adjusted_duration := ad }
      else
        { base with has_clash := true, severity := clash.clash_severity }
    else base

/-- `_check_vocal_clash_and_adjust(analysis_a, analysis_b,
transition_start_a, transition_duration, bpm)` from
`draft_transition_generator.py` (lines 322–475), translated branch by
branch (`min_transition_bars = 4`); the `safe_bars >=
min_transition_bars` failure in step 3 falls through to steps 4–5 exactly
as the Python does. -/
def check_vocal_clash_and_adjust (analysis_a analysis_b : EnrichedAnalysis)
    (transition_start_a transition_duration bpm : ℚ) : AdjustResult :=
  let bar_duration : ℚ := 60 / bpm * 4
  let base : AdjustResult :=
    ⟨false, "none", transition_start_a, transition_duration, false⟩
  let intro_b_duration := intro_b_of analysis_b.vocal_free_regions
  let outro_a_duration := outro_a_of analysis_a.vocal_free_regions
  -- STEP 3: safe transition duration from B's vocal-free intro
  if 0 < intro_b_duration ∧ transition_duration ≤ intro_b_duration then base
  else if 0 < intro_b_duration ∧
      4 ≤ pyInt (intro_b_duration / bar_duration) then
    let safe_bars : ℤ := pyInt (intro_b_duration / bar_duration)
    let adjusted := max (((safe_bars : ℚ) - 1) * bar_duration)
      (4 * bar_duration)
    { base with adjusted_duration := adjusted }
  else
    vocal_steps_4_5 analysis_a analysis_b transition_start_a
      transition_duration bpm intro_b_duration outro_a_duration

/-- The realization step of `generate_draft_transition_with_plan`
(`draft_transition_generator.py` lines 1744–1791): a `force_hard_cut`
verdict reroutes to the HARD_CUT renderer; otherwise the STEM_BLEND
render proceeds, with the transition trimmed to `adjusted_duration`
whenever that is strictly smaller than the planned duration. -/
def realizeVocalCheck (r : AdjustResult) (transition_duration_s : ℚ) :
    Planner.TransitionType × ℚ :=
  if r.force_hard_cut then (.HARD_CUT, 0)
  else (.STEM_BLEND,
    if r.adjusted_duration < transition_duration_s then r.adjusted_duration
    else transition_duration_s)

/-- A FULL-intensity vocal section of `v` overlaps the transition window
`(0, d)` — the window geometry used by `check_vocal_clash` with
`transition_start_a = 0`. -/
def fullInWindow (v : VocalsData) (d : ℚ) : Prop :=
  ∃ s ∈ v.sections, s.intensity = .FULL ∧ s.startS < d ∧ 0 < s.endS

instance (v : VocalsData) (d : ℚ) : Decidable (fullInWindow v d) := by
  unfold fullInWindow
  infer_instance

end Vocal

/-! ## The non-LLM stem rendering path and the bass-swap validator —
`draft_transition_generator.py` and `bass_swap.py` -/

namespace StemPath

/-- `calculate_transition_bars(avg_energy)` from
`draft_transition_generator.py` (lines 120–134). -/
def calculate_transition_bars (avg_energy : ℚ) : ℕ :=
  if 8/10 ≤ avg_energy then 16
  else if 1/2 ≤ avg_energy then 24
  else 32

/-- `bars_to_samples(bars, bpm)` from `draft_transition_generator.py`
(lines 162–166): `int(bars * 4 * (60 / bpm) * SAMPLE_RATE)` at
`SAMPLE_RATE = 44100`. -/
def bars_to_samples (bars : ℕ) (bpm : ℚ) : ℤ :=
  pyInt ((bars : ℚ) * 4 * (60 / bpm) * 44100)

/-- The `phase_samples` computation of `_apply_four_phase_mixing_spec`
(`draft_transition_generator.py` lines 968–977): four equal phases of
`bars_to_samples(transition_bars // 4, bpm)` samples, each rescaled by
`total_samples / sum` when the sum exceeds `total_samples`.  The Python
list holds the same value four times, so it is collapsed into one value
returned as a 4-tuple. -/
def phase_samples_calc (total_samples : ℕ) (bpm : ℚ) (transition_bars : ℕ) :
    ℤ × ℤ × ℤ × ℤ :=
  let spp := bars_to_samples (transition_bars / 4) bpm
  let tot := spp * 4
  if (total_samples : ℤ) < tot then
    let s := pyInt ((spp : ℚ) * ((total_samples : ℚ) / (tot : ℚ)))
    (s, s, s, s)
  else (spp, spp, spp, spp)

/-- A dictionary of per-stem volume curves (or stem signals), as a value
function over sample indices; indices at or beyond the rendered length
are never read. -/
structure StemCurves where
  drums : ℕ → ℚ
  bass : ℕ → ℚ
  vocals : ℕ → ℚ
  other : ℕ → ℚ

/-- `_generate_curves_track_a_spec(phase_samples, total_samples)` from
`draft_transition_generator.py` (lines 1006–1049).  Each numpy slice
assignment becomes one branch of an index-conditional; branches are
ordered so that a later assignment overrides an earlier one, exactly as
in the source. -/
def generate_curves_track_a_spec (p1 p2 p3 p4 : ℤ) (total_samples : ℕ) :
    StemCurves :=
  let p1e := p1
  let p2e := p1 + p2
  let p3e := p1 + p2 + p3
  { drums := fun i =>
      if 0 < p4 ∧ p3e ≤ (i : ℤ) then
        linspace 1 0 ((total_samples : ℤ) - p3e).toNat ((i : ℤ) - p3e).toNat
      else 1,
    bass := fun i =>
      if 0 < p4 ∧ p3e ≤ (i : ℤ) then
        linspace (1/5) 0 ((total_samples : ℤ) - p3e).toNat ((i : ℤ) - p3e).toNat
      else if p2e ≤ (i : ℤ) ∧ (i : ℤ) < p3e then 1/5
      else if 0 < p2 ∧ p1e ≤ (i : ℤ) ∧ (i : ℤ) < p2e then
        linspace 1 (1/5) p2.toNat ((i : ℤ) - p1e).toNat
      else 1,
    vocals := fun i =>
      if p3e ≤ (i : ℤ) then 0
      else if 0 < p3 ∧ p2e ≤ (i : ℤ) ∧ (i : ℤ) < p3e then
        linspace 1 0 p3.toNat ((i : ℤ) - p2e).toNat
      else 1,
    other := fun i =>
      if 0 < p4 ∧ p3e ≤ (i : ℤ) then
        linspace 1 0 ((total_samples : ℤ) - p3e).toNat ((i : ℤ) - p3e).toNat
      else 1 }

/-- `_generate_curves_track_b_spec(phase_samples, total_samples)` from
`draft_transition_generator.py` (lines 1052–1101), embedded the same
way. -/
def generate_curves_track_b_spec (p1 p2 p3 _p4 : ℤ) (_total_samples : ℕ) :
    StemCurves :=
  let p1e := p1
  let p2e := p1 + p2
  let p3e := p1 + p2 + p3
  { drums := fun i =>
      if p2e ≤ (i : ℤ) then 1
      else if 0 < p2 ∧ p1e ≤ (i : ℤ) ∧ (i : ℤ) < p2e then
        linspace (7/10) 1 p2.toNat ((i : ℤ) - p1e).toNat
      else if 0 < p1 ∧ (i : ℤ) < p1e then linspace 0 (7/10) p1.toNat i
      else 0,
    bass := fun i =>
      if p2e ≤ (i : ℤ) then 1
      else if 0 < p2 ∧ p1e ≤ (i : ℤ) ∧ (i : ℤ) < p2e then
        linspace 0 1 p2.toNat ((i : ℤ) - p1e).toNat
      else 0,
    vocals := fun i =>
      if p3e ≤ (i : ℤ) then 1
      else if 0 < p3 ∧ p2e ≤ (i : ℤ) ∧ (i : ℤ) < p3e then
        linspace 0 1 p3.toNat ((i : ℤ) - p2e).toNat
      else 0,
    other := fun i =>
      if p3e ≤ (i : ℤ) then 1
      else if 0 < p3 ∧ p2e ≤ (i : ℤ) ∧ (i : ℤ) < p3e then
        linspace (1/2) 1 p3.toNat ((i : ℤ) - p2e).toNat
      else if 0 < p2 ∧ p1e ≤ (i : ℤ) ∧ (i : ℤ) < p2e then
        linspace (3/10) (1/2) p2.toNat ((i : ℤ) - p1e).toNat
      else if 0 < p1 ∧ (i : ℤ) < p1e then linspace 0 (3/10) p1.toNat i
      else 0 }

/-- `_apply_four_phase_mixing_spec(stems_a, stems_b, total_samples, bpm,
transition_bars)` from `draft_transition_generator.py` (lines 948–1003):
the mixed output `Σ_stems stem_a · curve_a + stem_b · curve_b`, summed in
the source's stem order. -/
def apply_four_phase_mixing_spec (stems_a stems_b : StemCurves)
    (total_samples : ℕ) (bpm : ℚ) (transition_bars : ℕ) : ℕ → ℚ :=
  let ps := phase_samples_calc total_samples bpm transition_bars
  let ca := generate_curves_track_a_spec ps.1 ps.2.1 ps.2.2.1 ps.2.2.2 total_samples
  let cb := generate_curves_track_b_spec ps.1 ps.2.1 ps.2.2.1 ps.2.2.2 total_samples
  fun i =>
    (stems_a.drums i * ca.drums i + stems_b.drums i * cb.drums i) +
    (stems_a.bass i * ca.bass i + stems_b.bass i * cb.bass i) +
    (stems_a.other i * ca.other i + stems_b.other i * cb.other i) +
    (stems_a.vocals i * ca.vocals i + stems_b.vocals i * cb.vocals i)

/-- The bass stem of track A as it sounds inside the mixed STEM_BLEND
output of `_apply_four_phase_mixing_spec`: the input bass stem scaled by
track A's bass curve. -/
def four_phase_bass_a (bass_a : ℕ → ℚ) (total_samples : ℕ) (bpm : ℚ)
    (transition_bars : ℕ) : ℕ → ℚ :=
  let ps := phase_samples_calc total_samples bpm transition_bars
  fun i => bass_a i *
    (generate_curves_track_a_spec ps.1 ps.2.1 ps.2.2.1 ps.2.2.2 total_samples).bass i

/-- The bass stem of track B as it sounds inside the mixed STEM_BLEND
output. -/
def four_phase_bass_b (bass_b : ℕ → ℚ) (total_samples : ℕ) (bpm : ℚ)
    (transition_bars : ℕ) : ℕ → ℚ :=
  let ps := phase_samples_calc total_samples bpm transition_bars
  fun i => bass_b i *
    (generate_curves_track_b_spec ps.1 ps.2.1 ps.2.2.1 ps.2.2.2 total_samples).bass i

/-- The squared RMS of the `i`-th 100 ms window (`calculate_rms_windows`
inside `validate_bass_swap`, `bass_swap.py` lines 181–188).  The source
computes `sqrt(mean(x²))`; the square root is omitted and every
comparison downstream is performed on squares — `sqrt` is strictly
monotone on nonnegative reals, so all Boolean outcomes agree. -/
def rmsSq (x : ℕ → ℚ) (w : ℕ) (i : ℕ) : ℚ :=
  (∑ j in Finset.range w, (x (w * i + j))^2) / w

/-- `np.max` over the first `n` window values, seeded with 0; all RMS
values are nonnegative, so this equals numpy's maximum on the nonempty
arrays the validator works with. -/
def vmax (f : ℕ → ℚ) : ℕ → ℚ
  | 0 => 0
  | n + 1 => max (vmax f n) (f n)

/-- `validate_bass_swap(bass_a, bass_b, sr, bpm, max_overlap_beats)` from
`bass_swap.py` (lines 156–228), embedded through squared RMS values (see
`rmsSq`): 100 ms windows, a window counts as bass-present when its RMS
exceeds `0.1 · max(rms_a, rms_b, 0.001)` (squared:
`rmsSq > 0.01 · max(maxSqA, maxSqB, 0.001²)`), and the result is valid
when the overlapping windows last at most `max_overlap_beats` beats.
Returns the `valid` field. -/
def validate_bass_swap_valid (bass_a bass_b : ℕ → ℚ) (len_a len_b : ℕ)
    (sr : ℕ) (bpm : ℚ) (max_overlap_beats : ℚ) : Bool :=
  let w := (pyInt ((1/10 : ℚ) * sr)).toNat
  let nA := len_a / w
  let nB := len_b / w
  let maxSq := max (max (vmax (rmsSq bass_a w) nA) (vmax (rmsSq bass_b w) nB))
    ((1/1000 : ℚ)^2)
  let n := min nA nB
  let overlap_windows := ((Finset.range n).filter (fun i =>
    (1/100 : ℚ) * maxSq < rmsSq bass_a w i ∧
    (1/100 : ℚ) * maxSq < rmsSq bass_b w i)).card
  let overlap_seconds := (overlap_windows : ℚ) * w / sr
  let overlap_beats := overlap_seconds / (60 / bpm)
  decide (overlap_beats ≤ max_overlap_beats)

end StemPath

/-! ## Segment assembly and the cut-point contract — `mix_generator.py` -/

namespace MixGen

/-- `TrackData` from `mix_generator.py` (lines 31–41), restricted to the
fields the segment pipeline reads.  `generate_mix_for_project` encodes a
missing `introEnd`/`outroStart` as `0` (lines 454–455), so the `Optional`
fields are plain rationals here with `0` standing for absent. -/
structure TrackData where
  id : ℕ
  duration_ms : ℚ
  bpm : ℚ
  energy : ℚ
  intro_end_ms : ℚ
  outro_start_ms : ℚ
deriving DecidableEq

/-- Segment kind: `'SOLO'` or `'TRANSITION'`. -/
inductive SegType
  | SOLO
  | TRANSITION
deriving DecidableEq

/-- `SegmentInfo` from `mix_generator.py` (lines 44–53).  The composite
`transition_id` string `f"{a.id}_{b.id}"` is kept as the pair of ids. -/
structure SegmentInfo where
  position : ℕ
  type : SegType
  track_id : Option ℕ
  transition_id : Option (ℕ × ℕ)
  start_ms : ℤ
  end_ms : ℤ
  duration_ms : ℤ
deriving DecidableEq

/-- `bars_to_ms(bars, bpm)` (lines 83–86): `int(bars * 4 * 60000 / bpm)`
with `BEATS_PER_BAR = 4`. -/
def bars_to_ms (bars : ℕ) (bpm : ℚ) : ℤ :=
  pyInt ((bars : ℚ) * 4 * 60000 / bpm)

/-- `get_default_intro_end_ms` (lines 94–98). -/
def get_default_intro_end_ms (bpm duration_ms : ℚ) : ℚ :=
  min ((bars_to_ms 16 bpm : ℤ) : ℚ) (duration_ms * (1/4))

/-- `get_default_outro_start_ms` (lines 101–105). -/
def get_default_outro_start_ms (bpm duration_ms : ℚ) : ℚ :=
  max (duration_ms - ((bars_to_ms 16 bpm : ℤ) : ℚ)) (duration_ms * (3/4))

/-- `calculate_transition_duration_bars` (lines 66–80). -/
def calculate_transition_duration_bars (energy_a energy_b : ℚ) : ℕ :=
  if 8/10 ≤ (energy_a + energy_b) / 2 then 16
  else if 1/2 ≤ (energy_a + energy_b) / 2 then 24
  else 32

/-- The intro-end fallback of `calculate_segments` (lines 142–144):
`None` (encoded `0`) or a non-positive value falls back to the default. -/
def effectiveIntroEnd (t : TrackData) : ℚ :=
  if t.intro_end_ms ≤ 0 then get_default_intro_end_ms t.bpm t.duration_ms
  else t.intro_end_ms

/-- The outro-start fallback of `calculate_segments` (lines 146–148). -/
def effectiveOutroStart (t : TrackData) : ℚ :=
  if t.outro_start_ms ≤ 0 ∨ t.duration_ms ≤ t.outro_start_ms then
    get_default_outro_start_ms t.bpm t.duration_ms
  else t.outro_start_ms

/-- Solo segment start (lines 150–154). -/
def soloStart (is_first : Bool) (t : TrackData) : ℤ :=
  if is_first then 0 else pyInt (effectiveIntroEnd t)

/-- Solo segment end (lines 156–160). -/
def soloEnd (is_last : Bool) (t : TrackData) : ℤ :=
  if is_last then pyInt t.duration_ms else pyInt (effectiveOutroStart t)

/-- The transition duration in ms for the pair `(t, next)`
(lines 180–181): bars from the two energies, converted at `t`'s BPM. -/
def transDurMs (t next : TrackData) : ℤ :=
  bars_to_ms (calculate_transition_duration_bars t.energy next.energy) t.bpm

/-- The main loop of `calculate_segments` (lines 134–198): one iteration
per track, appending the track's solo segment only when it is
non-degenerate (`solo_end_ms > solo_start_ms`, line 163) and a
transition segment before every following track.  `first` is `i == 0`
and `pos` the running `position` counter. -/
def calc_segs_go (first : Bool) (pos : ℕ) : List TrackData → List SegmentInfo
  | [] => []
  | t :: rest =>
    let s := soloStart first t
    let e := soloEnd rest.isEmpty t
    let soloSegs : List SegmentInfo :=
      if s < e then [⟨pos, .SOLO, some t.id, none, s, e, e - s⟩] else []
    let pos1 := pos + soloSegs.length
    match rest with
    | [] => soloSegs
    | next :: rest2 =>
      soloSegs ++ ⟨pos1, .TRANSITION, none, some (t.id, next.id), 0,
          transDurMs t next, transDurMs t next⟩ ::
        calc_segs_go false (pos1 + 1) (next :: rest2)

/-- `calculate_segments(tracks)` (lines 108–198). -/
def calculate_segments (tracks : List TrackData) : List SegmentInfo :=
  if tracks.length < 2 then
    match tracks with
    | [t] => [⟨0, .SOLO, some t.id, none, 0, pyInt t.duration_ms, pyInt t.duration_ms⟩]
    | _ => []
  else calc_segs_go true 0 tracks

/-- The fields of `TransitionResult` (lines 56–63) the assembly loop
reads; the rendering itself is abstracted into a function
`TrackData → TrackData → TransitionResult` passed to the assembler. -/
structure TransitionResult where
  duration_ms : ℤ
  track_a_cut_ms : ℤ
  track_b_start_ms : ℤ

/-- One entry of `results['segments']` in `generate_mix_for_project`
(lines 478–487), restricted to the bookkeeping fields. -/
structure OutSeg where
  position : ℕ
  type : SegType
  trackId : Option ℕ
  transitionId : Option (ℕ × ℕ)
  startMs : ℤ
  endMs : ℤ
  durationMs : ℤ
deriving DecidableEq

/-- Placeholder used for out-of-range `List.getD` reads; the assembler
only indexes inside bounds (mirroring Python's guarded indexing). -/
def dummyTrack : TrackData := ⟨0, 0, 0, 0, 0, 0⟩

/-- Step 1 of the "CRITICAL FIX" block (lines 524–545): if the last
emitted output segment is a SOLO of track A, rewrite its end to the
renderer's `track_a_cut_ms` and recompute the duration. -/
def updatePrev (a_id : ℕ) (res : TransitionResult) : List OutSeg → List OutSeg
  | [] => []
  | prev :: tl =>
    if prev.type = SegType.SOLO ∧ prev.trackId = some a_id then
      ⟨prev.position, prev.type, prev.trackId, prev.transitionId, prev.startMs, res.track_a_cut_ms, max 0 (res.track_a_cut_ms - prev.startMs)⟩ :: tl
    else prev :: tl

/-- Step 2 of the "CRITICAL FIX" block (lines 547–554): if the next
pending segment is a SOLO of track B, rewrite its start to the
renderer's `track_b_start_ms` and recompute the duration. -/
def updateNext (b_id : ℕ) (res : TransitionResult) : List SegmentInfo → List SegmentInfo
  | [] => []
  | nxt :: tl =>
    if nxt.type = SegType.SOLO ∧ nxt.track_id = some b_id then
      ⟨nxt.position, nxt.type, nxt.track_id, nxt.transition_id, res.track_b_start_ms, nxt.end_ms, max 0 (nxt.end_ms - res.track_b_start_ms)⟩ :: tl
    else nxt :: tl

/-- The per-segment loop of `generate_mix_for_project` (lines 477–560).
`orig` is the segment list produced by `calculate_segments`; the loop
walks it in order, and for each TRANSITION segment counts the SOLO
segments before it by position (line 491; in-place mutations never
change a segment's `type`, so the count over the original list equals
Python's count over the live list), pairs `tracks[count-1]` with
`tracks[count]` (lines 493–498), renders, records the rendered duration,
and rewrites the bounds of the adjacent solos via `updatePrev` /
`updateNext`.  `acc` is `results['segments']` in reverse. -/
def assemble_go (tracks : List TrackData)
    (render : TrackData → TrackData → TransitionResult)
    (orig : List SegmentInfo) :
    List SegmentInfo → List OutSeg → List OutSeg
  | [], acc => acc.reverse
  | seg :: rest, acc =>
    let base : OutSeg := ⟨seg.position, seg.type, seg.track_id,
      seg.transition_id, seg.start_ms, seg.end_ms, seg.duration_ms⟩
    if seg.type = SegType.TRANSITION then
      let soloCount := ((orig.take seg.position).filter
        (fun x => x.type == SegType.SOLO)).length
      if 1 ≤ soloCount then
        if soloCount < tracks.length then
          let track_a := tracks.getD (soloCount - 1) dummyTrack
          let track_b := tracks.getD soloCount dummyTrack
          let res := render track_a track_b
          let segd : OutSeg := { base with durationMs := res.duration_ms }
          assemble_go tracks render orig (updateNext track_b.id res rest)
            (segd :: updatePrev track_a.id res acc)
        else assemble_go tracks render orig rest (base :: acc)
      else assemble_go tracks render orig rest (base :: acc)
    else assemble_go tracks render orig rest (base :: acc)
termination_by l _ => l.length
decreasing_by
  all_goals
    have hul : ∀ (b : ℕ) (r : TransitionResult) (l : List SegmentInfo),
        (updateNext b r l).length = l.length := by
      intro b r l
      cases l with
      | nil => rfl
      | cons a tl =>
        simp only [updateNext]
        split <;> rfl
    simp [hul]

/-- The segment bookkeeping of `generate_mix_for_project`
(lines 458–566) with audio rendering abstracted as `render`. -/
def generate_mix_segments (tracks : List TrackData)
    (render : TrackData → TrackData → TransitionResult) : List OutSeg :=
  assemble_go tracks render (calculate_segments tracks)
    (calculate_segments tracks) []

/-- The three-track input of the C4 counterexample: track 0 carries a
degenerate `outro_start_ms` of half a millisecond (positive and below
the duration, so the fallback of lines 146–148 does not fire, yet
`int(outro_start_ms) = 0` makes its solo empty and dropped). -/
def tracksEx : List TrackData :=
  [⟨0, 200000, 120, 9/10, 10000, 1/2⟩,
   ⟨1, 200000, 120, 9/10, 10000, 180000⟩,
   ⟨2, 200000, 120, 9/10, 10000, 180000⟩]

/-- A renderer stub reporting fixed cut points, distinct from every solo
bound occurring in `tracksEx`'s segment list. -/
def renderEx (_a _b : TrackData) : TransitionResult := ⟨32000, 1234, 777⟩

/-- The tail of the segment list from track `t` on, when no solo is
degenerate: alternating TRANSITION/SOLO pairs. -/
def chainAfter : ℕ → TrackData → List TrackData → List SegmentInfo
  | _, _, [] => []
  | pos, t, next :: rest2 =>
    ⟨pos, .TRANSITION, none, some (t.id, next.id), 0, transDurMs t next, transDurMs t next⟩ ::
    ⟨pos + 1, .SOLO, some next.id, none, soloStart false next, soloEnd rest2.isEmpty next,
      soloEnd rest2.isEmpty next - soloStart false next⟩ ::
    chainAfter (pos + 2) next rest2

/-- Every track's solo segment is non-degenerate (`solo_end > solo_start`
with the first/last flags of its position in the list). -/
def NondegChain : Bool → List TrackData → Prop
  | _, [] => True
  | first, [t] => soloStart first t < soloEnd true t
  | first, t :: next :: rest => soloStart first t < soloEnd false t ∧ NondegChain false (next :: rest)

/-- The output segment list the assembler produces from track `t` on:
each solo's end is rewritten to the renderer's `track_a_cut_ms` and each
following solo's start to `track_b_start_ms`.  `s` and `d` are the head
solo's (already rewritten) start and duration. -/
def outChain (render : TrackData → TrackData → TransitionResult) :
    ℕ → ℤ → ℤ → List TrackData → List OutSeg
  | _, _, _, [] => []
  | pos, s, d, [t] => [⟨pos, .SOLO, some t.id, none, s, pyInt t.duration_ms, d⟩]
  | pos, s, _, t :: next :: rest =>
    ⟨pos, .SOLO, some t.id, none, s, (render t next).track_a_cut_ms,
      max 0 ((render t next).track_a_cut_ms - s)⟩ ::
    ⟨pos + 1, .TRANSITION, none, some (t.id, next.id), 0, transDurMs t next,
      (render t next).duration_ms⟩ ::
    outChain render (pos + 2) ((render t next).track_b_start_ms)
      (max 0 (soloEnd rest.isEmpty next - (render t next).track_b_start_ms)) (next :: rest)

end MixGen

/-! ## Theorems -/

theorem linspace_mem_unitInterval {a b : ℚ} (ha0 : 0 ≤ a) (ha1 : a ≤ 1)
    (hb0 : 0 ≤ b) (hb1 : b ≤ 1) {n k : ℕ} (hk : k < n) :
    0 ≤ linspace a b n k ∧ linspace a b n k ≤ 1 := by
  unfold linspace
  split
  · exact ⟨ha0, ha1⟩
  · rename_i hn
    push_neg at hn
    have hn1 : (1 : ℚ) ≤ (n - 1 : ℚ) := by
      have : (2 : ℚ) ≤ (n : ℚ) := by exact_mod_cast hn
      linarith
    have hden : (0:ℚ) < (n - 1 : ℚ) := by linarith
    have hkn : (k : ℚ) ≤ (n - 1 : ℚ) := by
      have : (k : ℚ) + 1 ≤ (n : ℚ) := by exact_mod_cast hk
      linarith
    have hk0 : (0:ℚ) ≤ (k : ℚ) := by positivity
    have ht0 : (0:ℚ) ≤ (k : ℚ) / (n - 1 : ℚ) := by positivity
    have ht1 : (k : ℚ) / (n - 1 : ℚ) ≤ 1 := by
      rw [div_le_one hden]; exact hkn
    constructor
    · rcases le_total a b with hab | hab
      · have : 0 ≤ (b - a) * ((k : ℚ) / (n - 1 : ℚ)) := by
          apply mul_nonneg <;> [linarith; exact ht0]
        calc (0:ℚ) ≤ a := ha0
          _ ≤ a + (b - a) * ((k : ℚ) / (n - 1 : ℚ)) := by linarith
          _ = a + (b - a) * k / (n - 1 : ℚ) := by ring
      · have h1 : (b - a) * ((k : ℚ) / (n - 1 : ℚ)) ≥ (b - a) * 1 := by
          apply mul_le_mul_of_nonpos_left ht1; linarith
        have : a + (b - a) * ((k : ℚ) / (n - 1 : ℚ)) ≥ b := by linarith
        calc (0:ℚ) ≤ b := hb0
          _ ≤ a + (b - a) * ((k : ℚ) / (n - 1 : ℚ)) := this
          _ = a + (b - a) * k / (n - 1 : ℚ) := by ring
    · rcases le_total a b with hab | hab
      · have h1 : (b - a) * ((k : ℚ) / (n - 1 : ℚ)) ≤ (b - a) * 1 := by
          apply mul_le_mul_of_nonneg_left ht1; linarith
        have : a + (b - a) * k / (n - 1 : ℚ)
            = a + (b - a) * ((k : ℚ) / (n - 1 : ℚ)) := by ring
        rw [this]; linarith
      · have : 0 ≥ (b - a) * ((k : ℚ) / (n - 1 : ℚ)) := by
          apply mul_nonpos_of_nonpos_of_nonneg <;> [linarith; exact ht0]
        have heq : a + (b - a) * k / (n - 1 : ℚ)
            = a + (b - a) * ((k : ℚ) / (n - 1 : ℚ)) := by ring
        rw [heq]; linarith

/-- C6.  The dominant case is dead code: the circular distance
`min(|n_a−n_b|, 12−|n_a−n_b|)` can never equal 7, so the branch returning
75 is unreachable and 75 is *not* in the range of the harmonic score.  In
particular the pair `8A`, `3A` — which the module docstring and the test
suite (`tests/test_harmonic.py`, `test_camelot_dominant_75`) assert scores
75 as a dominant — actually scores 70 through the subdominant branch
(distance `min(5, 7) = 5`). -/
theorem harmonic_dominant_branch_dead :
    Theory.calculate_harmonic_compatibility ⟨8, true⟩ ⟨3, true⟩ = 70 ∧
    ∀ a b : Theory.CamelotCode, Theory.calculate_harmonic_compatibility a b ≠ 75 := by
  constructor
  · decide
  · intro a b
    unfold Theory.calculate_harmonic_compatibility
    dsimp only
    have hd : min ((a.num : ℤ) - (b.num : ℤ)).natAbs
        (12 - ((a.num : ℤ) - (b.num : ℤ)).natAbs) ≠ 7 := by
      omega
    split
    · decide
    · split
      · decide
      · split
        · decide
        · split
          · decide
          · split
            · rename_i h
              exact absurd h.1 hd
            · split
              · decide
              · split
                · decide
                · split
                  · decide
                  · split <;> decide

/-- C3 counterexample.  At harmonic score 55 and equal BPMs (delta 0 %),
the spec's table prescribes FILTER_SWEEP with 8 bars, but `_fallback_plan`
returns HARD_CUT with 0 bars: the fallback planner is not the spec's
five-row table, and no input in `h ∈ [50,60), d ≤ 6` yields FILTER_SWEEP. -/
theorem fallback_plan_not_spec_table :
    Planner.fallback_plan 55 120 120 ≠
      Planner.spec_fallback_table 55 (Planner.bpm_delta_pct 120 120) ∧
    (Planner.fallback_plan 55 120 120).ptype = Planner.TransitionType.HARD_CUT ∧
    (Planner.spec_fallback_table 55 (Planner.bpm_delta_pct 120 120)).ptype =
      Planner.TransitionType.FILTER_SWEEP := by
  norm_num [Planner.fallback_plan, Planner.spec_fallback_table,
    Planner.bpm_delta_pct]

/-- C3 amended.  The rule-based fallback planner is exactly the first-match
table: `h < 60 ∨ d > 6` gives HARD_CUT with 0 bars plus a reverb tail;
else `h ≥ 85 ∧ d ≤ 2` gives STEM_BLEND 16; else `h ≥ 70 ∧ d ≤ 4` gives
STEM_BLEND 8; otherwise CROSSFADE 8.  In particular the fallback planner
never produces FILTER_SWEEP. -/
theorem fallback_plan_is_code_table :
    (∀ h bpm_a bpm_b : ℚ,
      Planner.fallback_plan h bpm_a bpm_b =
        Planner.code_fallback_table h (Planner.bpm_delta_pct bpm_a bpm_b)) ∧
    (∀ h bpm_a bpm_b : ℚ,
      (Planner.fallback_plan h bpm_a bpm_b).ptype ≠
        Planner.TransitionType.FILTER_SWEEP) := by
  constructor
  · intro h a b
    unfold Planner.fallback_plan Planner.code_fallback_table
    rfl
  · intro h a b
    unfold Planner.fallback_plan
    dsimp only
    split
    · simp
    · split
      · simp
      · split <;> simp

namespace Effects

theorem peakAbs_nonneg (audio : List ℚ) : 0 ≤ peakAbs audio := by
  induction audio with
  | nil => simp [peakAbs]
  | cons x xs ih =>
    simp only [peakAbs, List.foldr_cons]
    exact le_trans ih (le_max_right _ _)

theorem peakAbs_map_mul (audio : List ℚ) (g : ℚ) (hg : 0 ≤ g) :
    peakAbs (audio.map (fun x => x * g)) = g * peakAbs audio := by
  induction audio with
  | nil => simp [peakAbs]
  | cons x xs ih =>
    simp only [peakAbs, List.map_cons, List.foldr_cons] at *
    rw [ih, abs_mul, abs_of_nonneg hg, mul_max_of_nonneg _ _ hg,
      mul_comm |x| g]

end Effects

/-- C8.  The limiter is idempotent at a fixed threshold: one application
brings the peak to at most the (nonnegative) linear threshold
`10^(threshold_db/20)`, so a second application takes the identity branch. -/
theorem apply_limiter_idempotent (audio : List ℚ) (threshold : ℚ)
    (hthr : 0 ≤ threshold) :
    Effects.apply_limiter (Effects.apply_limiter audio threshold) threshold =
      Effects.apply_limiter audio threshold := by
  unfold Effects.apply_limiter
  by_cases h : threshold < Effects.peakAbs audio
  · have hpeak0 : 0 < Effects.peakAbs audio := lt_of_le_of_lt hthr h
    have hg : 0 ≤ threshold / Effects.peakAbs audio := by positivity
    simp only [if_pos h]
    have hnew : Effects.peakAbs
        (audio.map (fun x => x * (threshold / Effects.peakAbs audio))) =
        threshold := by
      rw [Effects.peakAbs_map_mul _ _ hg, div_mul_cancel₀]
      exact ne_of_gt hpeak0
    rw [hnew] -- occurrences inside the outer if and scale factor
    simp
  · simp only [if_neg h, if_neg h]

/-- Witness for C8 at `audio = [3, -4]`, `threshold = 2`. -/
theorem apply_limiter_idempotent_witness :
    (0 : ℚ) ≤ 2 ∧
    Effects.apply_limiter (Effects.apply_limiter [(3 : ℚ), -4] 2) 2 =
      Effects.apply_limiter [(3 : ℚ), -4] 2 :=
  ⟨by norm_num, apply_limiter_idempotent [(3 : ℚ), -4] 2 (by norm_num)⟩

/-- C7 counterexample.  The claim is false for the peak normalizer of
`utils/audio.py`: the buffer `[1/10]` has peak `1/10 ≤ 7/10` (a value
`10^(target_db/20)` takes at `target_db = 20·log10(7/10)`), yet
`normalize_audio` rescales it to `[7/10]` — a boost — instead of returning
it unchanged. -/
theorem utils_normalize_audio_boosts :
    Effects.peakAbs [(1 : ℚ)/10] ≤ 7/10 ∧
    AudioUtils.normalize_audio [(1 : ℚ)/10] (7/10) = [(7 : ℚ)/10] ∧
    AudioUtils.normalize_audio [(1 : ℚ)/10] (7/10) ≠ [(1 : ℚ)/10] := by
  norm_num [AudioUtils.normalize_audio, Effects.peakAbs, abs_of_nonneg]

/-- C7 amended.  The *renderer's* peak normalizer — `_normalize_audio` in
`draft_transition_generator.py`, the one applied to every rendered
transition — never boosts: a buffer whose peak is at most the target peak
is returned unchanged, and a buffer whose peak exceeds the target is
scaled down by `target_peak / peak`.  The generic `normalize_audio` of
`utils/audio.py`, by contrast, rescales every buffer with positive peak to
the target, boosting quiet buffers.  (`target_peak = 10^(target_db/20)` is
always positive.) -/
theorem draft_normalize_never_boosts (audio : List ℚ) (target_peak : ℚ)
    (htp : 0 < target_peak) :
    (Effects.peakAbs audio ≤ target_peak →
      Draft.normalize_audio audio target_peak = audio) ∧
    (target_peak < Effects.peakAbs audio →
      Draft.normalize_audio audio target_peak =
        audio.map (fun x => x * (target_peak / Effects.peakAbs audio))) := by
  constructor
  · intro hle
    unfold Draft.normalize_audio
    by_cases h0 : Effects.peakAbs audio = 0
    · simp [h0]
    · rw [if_neg h0, if_neg (not_lt.mpr hle)]
  · intro hgt
    unfold Draft.normalize_audio
    have h0 : Effects.peakAbs audio ≠ 0 := ne_of_gt (lt_trans htp hgt)
    rw [if_neg h0, if_pos hgt]

/-- Witness for C7 amended, at `audio = [1/2]`, `target_peak = 1` (no
boost) and `audio = [2]`, `target_peak = 1` (scale down). -/
theorem draft_normalize_never_boosts_witness :
    Draft.normalize_audio [(1 : ℚ)/2] 1 = [(1 : ℚ)/2] ∧
    Draft.normalize_audio [(2 : ℚ)] 1 = [(1 : ℚ)] := by
  constructor
  · have h := (draft_normalize_never_boosts [(1 : ℚ)/2] 1 (by norm_num)).1
    rw [h]
    norm_num [Effects.peakAbs, abs_of_nonneg]
  · have h := (draft_normalize_never_boosts [(2 : ℚ)] 1 (by norm_num)).2
    rw [h (by norm_num [Effects.peakAbs, abs_of_nonneg])]
    norm_num [Effects.peakAbs, abs_of_nonneg]

namespace AnalysisCamelot

theorem lookup_mem_values {α β : Type} [BEq α] [LawfulBEq α]
    (l : List (α × β)) (k : α) (v : β) (h : l.lookup k = some v) :
    v ∈ l.map Prod.snd := by
  induction l with
  | nil => simp [List.lookup] at h
  | cons p t ih =>
    obtain ⟨a, b⟩ := p
    simp only [List.lookup] at h
    cases hbeq : (k == a) <;> rw [hbeq] at h
    · simp only [List.map_cons, List.mem_cons]
      exact Or.inr (ih h)
    · simp only [Option.some.injEq] at h
      subst h
      simp

theorem capitalizeKey_none {t : String} (h : capitalizeKey t = none) :
    t = "" := by
  unfold capitalizeKey at h
  cases t with
  | mk ld =>
    cases ld with
    | nil => rfl
    | cons c cs => simp at h

end AnalysisCamelot

/-- C10 counterexample.  `key_to_camelot` is *not* total: on the empty
string (not in the dictionary, so `key[0]` is evaluated) the Python
raises `IndexError` — modelled as `none` — instead of returning the
default `"8A"`. -/
theorem key_to_camelot_empty_raises :
    AnalysisCamelot.key_to_camelot "" = none := by decide

/-- C10 amended.  For every input whose stripped form is non-empty,
`key_to_camelot` returns a valid Camelot code, and the default `"8A"`
whenever neither dictionary probe recognizes the key; it raises
(`IndexError`) exactly on whitespace-only inputs.  `camelot_to_key`
returns `"Am"` for every unrecognized code. -/
theorem key_to_camelot_total_on_nonempty :
    (∀ s : String, AnalysisCamelot.pyStrip s ≠ "" →
      ∃ c, AnalysisCamelot.key_to_camelot s = some c ∧
        c ∈ AnalysisCamelot.CAMELOT_CODES) ∧
    (∀ s : String, AnalysisCamelot.pyStrip s ≠ "" →
      AnalysisCamelot.keyRecognized s = false →
      AnalysisCamelot.key_to_camelot s = some "8A") ∧
    (∀ s : String, AnalysisCamelot.camelotRecognized s = false →
      AnalysisCamelot.camelot_to_key s = "Am") := by
  have hvals : ∀ v ∈ AnalysisCamelot.KEY_TO_CAMELOT.map Prod.snd,
      v ∈ AnalysisCamelot.CAMELOT_CODES := by decide
  refine ⟨?_, ?_, ?_⟩
  · intro s hne
    unfold AnalysisCamelot.key_to_camelot
    dsimp only
    cases h1 : AnalysisCamelot.KEY_TO_CAMELOT.lookup (AnalysisCamelot.pyStrip s) with
    | some v =>
      exact ⟨v, rfl, hvals v (AnalysisCamelot.lookup_mem_values _ _ _ h1)⟩
    | none =>
      cases h2 : AnalysisCamelot.capitalizeKey (AnalysisCamelot.pyStrip s) with
      | none => exact absurd (AnalysisCamelot.capitalizeKey_none h2) hne
      | some ku =>
        dsimp only
        cases h3 : AnalysisCamelot.KEY_TO_CAMELOT.lookup ku with
        | some v =>
          exact ⟨v, rfl, hvals v (AnalysisCamelot.lookup_mem_values _ _ _ h3)⟩
        | none => exact ⟨"8A", rfl, by decide⟩
  · intro s hne hur
    unfold AnalysisCamelot.keyRecognized at hur
    unfold AnalysisCamelot.key_to_camelot
    dsimp only at hur ⊢
    cases h1 : AnalysisCamelot.KEY_TO_CAMELOT.lookup (AnalysisCamelot.pyStrip s) with
    | some v => rw [h1] at hur; simp at hur
    | none =>
      rw [h1] at hur
      cases h2 : AnalysisCamelot.capitalizeKey (AnalysisCamelot.pyStrip s) with
      | none => exact absurd (AnalysisCamelot.capitalizeKey_none h2) hne
      | some ku =>
        rw [h2] at hur
        dsimp only at hur ⊢
        cases h3 : AnalysisCamelot.KEY_TO_CAMELOT.lookup ku with
        | some v => rw [h3] at hur; simp at hur
        | none => rfl
  · intro s hur
    unfold AnalysisCamelot.camelotRecognized at hur
    unfold AnalysisCamelot.camelot_to_key
    cases h1 : AnalysisCamelot.CAMELOT_TO_KEY.lookup (AnalysisCamelot.pyUpper s) with
    | some v => rw [h1] at hur; simp at hur
    | none => rfl

/-- Witness for C10 amended at the garbage key `"zzz"` and garbage code
`"9Z"`. -/
theorem key_to_camelot_total_on_nonempty_witness :
    AnalysisCamelot.key_to_camelot "zzz" = some "8A" ∧
    AnalysisCamelot.camelot_to_key "9Z" = "Am" :=
  ⟨(key_to_camelot_total_on_nonempty).2.1 "zzz" (by decide) (by decide),
   (key_to_camelot_total_on_nonempty).2.2 "9Z" (by decide)⟩

/-- C9.  Applying the bass swap to full stem dictionaries modifies only
the bass stems: for every pair of stem dictionaries, swap time, style,
BPM, sample rate (and any equal-power curves), the drums, other and
vocals stems of both outputs are exactly the corresponding inputs.  The
sources never mutate their inputs — both `apply_bass_swap_to_stems` and
`execute_bass_swap` operate on `.copy()`s — which the embedding reflects
by modelling them as pure functions on immutable values. -/
theorem bass_swap_touches_only_bass (fo fi : ℕ → ℕ → ℚ)
    (stems_a stems_b : BassSwap.Stems) (swap_time : ℚ) (instant : Bool)
    (bpm : ℚ) (sr : ℕ) :
    ((BassSwap.apply_bass_swap_to_stems fo fi stems_a stems_b swap_time
        instant bpm sr).1.drums = stems_a.drums ∧
     (BassSwap.apply_bass_swap_to_stems fo fi stems_a stems_b swap_time
        instant bpm sr).1.other = stems_a.other ∧
     (BassSwap.apply_bass_swap_to_stems fo fi stems_a stems_b swap_time
        instant bpm sr).1.vocals = stems_a.vocals) ∧
    ((BassSwap.apply_bass_swap_to_stems fo fi stems_a stems_b swap_time
        instant bpm sr).2.drums = stems_b.drums ∧
     (BassSwap.apply_bass_swap_to_stems fo fi stems_a stems_b swap_time
        instant bpm sr).2.other = stems_b.other ∧
     (BassSwap.apply_bass_swap_to_stems fo fi stems_a stems_b swap_time
        instant bpm sr).2.vocals = stems_b.vocals) := by
  unfold BassSwap.apply_bass_swap_to_stems
  cases ha : stems_a.bass <;> cases hb : stems_b.bass <;> simp

namespace Vocal

theorem le_foldr_max {l : List ℕ} {a : ℕ} (h : a ∈ l) (b : ℕ) :
    a ≤ l.foldr max b := by
  induction l with
  | nil => cases h
  | cons x xs ih =>
    rcases List.mem_cons.mp h with rfl | hmem
    · exact le_max_left _ _
    · exact le_trans (ih hmem) (le_max_right _ _)

theorem consecGaps_fst_mem {min_duration : ℚ} {l : List VocalSection}
    {r : ℚ × ℚ} (h : r ∈ consecGaps min_duration l) :
    ∃ p ∈ l, r.1 = p.endS := by
  induction l with
  | nil => cases h
  | cons a t ih =>
    cases t with
    | nil => cases h
    | cons b rest =>
      unfold consecGaps at h
      rcases List.mem_append.mp h with h1 | h2
      · split at h1
        · rcases List.mem_singleton.mp h1 with rfl
          exact ⟨a, List.mem_cons_self _ _, rfl⟩
        · cases h1
      · obtain ⟨p, hp, hr⟩ := ih h2
        exact ⟨p, List.mem_cons_of_mem _ hp, hr⟩

theorem getLastD_mem (l : List VocalSection) (d : VocalSection)
    (h : l ≠ []) : l.getLastD d ∈ l := by
  induction l generalizing d with
  | nil => exact absurd rfl h
  | cons a t ih =>
    cases t with
    | nil => simp [List.getLastD]
    | cons b rest =>
      have : (a :: b :: rest).getLastD d = (b :: rest).getLastD b := by
        simp [List.getLastD]
      rw [this]
      exact List.mem_cons_of_mem _ (ih b (by simp))

theorem pyInt_of_nonneg {q : ℚ} (h : 0 ≤ q) : pyInt q = ⌊q⌋ := by
  unfold pyInt
  exact if_pos h

/-- Track B's vocal-free intro, as `_check_vocal_clash_and_adjust`
recovers it from the enriched regions: the start of B's first vocal
section when that start is at least the 4-second minimum region length,
and 0 otherwise. -/
theorem intro_b_char (vb : VocalsData) (durB : ℚ)
    (hbv : vb.has_vocals = true)
    (s0 : VocalSection) (rest : List VocalSection)
    (hsec : vb.sections = s0 :: rest)
    (hbpos : ∀ s ∈ vb.sections, 0 ≤ s.startS ∧ 0 < s.endS) :
    intro_b_of (analyze_track_enriched vb durB).vocal_free_regions =
      if 4 ≤ s0.startS then s0.startS else 0 := by
  unfold analyze_track_enriched
  dsimp only
  rw [if_pos hbv]
  unfold get_vocal_free_regions
  rw [if_neg (show ¬(vb.has_vocals = false) by simp [hbv]), hsec]
  dsimp only
  by_cases hintro : 4 ≤ s0.startS
  · rw [if_pos hintro, if_pos hintro]
    unfold intro_b_of
    simp only [List.cons_append, List.nil_append]
    rw [List.find?_cons_of_pos _ (by simp)]
    simp
  · rw [if_neg hintro, if_neg hintro]
    unfold intro_b_of
    have hnone : (consecGaps 4 (s0 :: rest) ++
        (if durB ≠ 0 ∧ 4 ≤ durB - ((s0 :: rest).getLastD s0).endS then
          [(((s0 :: rest).getLastD s0).endS, durB)] else [])).find?
        (fun r => decide (r.1 = 0)) = none := by
      rw [List.find?_eq_none]
      intro r hr
      simp only [decide_eq_true_eq]
      rcases List.mem_append.mp hr with hg | ho
      · obtain ⟨p, hp, hfst⟩ := consecGaps_fst_mem hg
        have := (hbpos p (by rw [hsec]; exact hp)).2
        rw [hfst]
        exact ne_of_gt this
      · split at ho
        · rcases List.mem_singleton.mp ho with rfl
          have hmem := getLastD_mem (s0 :: rest) s0 (by simp)
          have := (hbpos _ (by rw [hsec]; exact hmem)).2
          exact ne_of_gt this
        · cases ho
    rw [List.nil_append, hnone]

/-- `(analyze_track_enriched v d).vocals` is the input detection. -/
theorem analyze_vocals (v : VocalsData) (d : ℚ) :
    (analyze_track_enriched v d).vocals = v := rfl

/-- `(analyze_track_enriched v d).has_vocals` is the input flag. -/
theorem analyze_has (v : VocalsData) (d : ℚ) :
    (analyze_track_enriched v d).has_vocals = v.has_vocals := rfl

/-- `realizeVocalCheck` on a non-forcing verdict. -/
theorem realize_not_forced (r : AdjustResult) (t : ℚ)
    (h : r.force_hard_cut = false) :
    realizeVocalCheck r t = (Planner.TransitionType.STEM_BLEND,
      if r.adjusted_duration < t then r.adjusted_duration else t) := by
  unfold realizeVocalCheck
  rw [if_neg (by rw [h]; simp)]

/-- `realizeVocalCheck` on a forcing verdict. -/
theorem realize_forced (r : AdjustResult) (t : ℚ)
    (h : r.force_hard_cut = true) :
    realizeVocalCheck r t = (Planner.TransitionType.HARD_CUT, 0) := by
  unfold realizeVocalCheck
  rw [if_pos h]

/-- The bar-quantised shortened duration of step 3 stays within the
vocal-free intro `E` it was computed from. -/
theorem step3_adjust_le {E B : ℚ} (hE : 0 ≤ E) (hB : 0 < B)
    (h4 : (4:ℤ) ≤ pyInt (E / B)) :
    max (((pyInt (E / B) : ℤ) : ℚ) - 1) 0 * B ≤ E ∧
    max ((((pyInt (E / B) : ℤ) : ℚ) - 1) * B) (4 * B) ≤ E := by
  have hfl : pyInt (E / B) = ⌊E / B⌋ :=
    pyInt_of_nonneg (div_nonneg hE (le_of_lt hB))
  have hflQ : ((pyInt (E / B) : ℤ) : ℚ) ≤ E / B := by
    rw [hfl]
    exact Int.floor_le _
  have hmul : ((pyInt (E / B) : ℤ) : ℚ) * B ≤ E := by
    calc ((pyInt (E / B) : ℤ) : ℚ) * B ≤ E / B * B :=
          mul_le_mul_of_nonneg_right hflQ (le_of_lt hB)
      _ = E := div_mul_cancel₀ E (ne_of_gt hB)
  have h4Q : (4:ℚ) ≤ ((pyInt (E / B) : ℤ) : ℚ) := by exact_mod_cast h4
  constructor
  · have : max (((pyInt (E / B) : ℤ) : ℚ) - 1) 0 = ((pyInt (E / B) : ℤ) : ℚ) - 1 :=
      max_eq_left (by linarith)
    rw [this]
    nlinarith
  · apply max_le
    · nlinarith
    · nlinarith

/-- When the step-3 guard fails, the vocal-free intro is shorter than the
4-bar minimum. -/
theorem intro_lt_of_no_step3 {E B : ℚ} (hE : 0 ≤ E) (hB : 0 < B)
    (h : ¬(0 < E ∧ (4:ℤ) ≤ pyInt (E / B))) : E < 4 * B := by
  by_cases hEpos : 0 < E
  · have h4 : ¬ (4:ℤ) ≤ pyInt (E / B) := fun hc => h ⟨hEpos, hc⟩
    rw [pyInt_of_nonneg (div_nonneg hE (le_of_lt hB))] at h4
    push_neg at h4
    have : E / B < ((4:ℤ) : ℚ) := by
      rw [← Int.floor_lt]
      omega
    have : E / B < (4:ℚ) := by exact_mod_cast this
    calc E = E / B * B := (div_mul_cancel₀ E (ne_of_gt hB)).symm
      _ < 4 * B := by nlinarith
  · push_neg at hEpos
    nlinarith

/-- When FULL-intensity vocal sections of both tracks overlap the
transition window, `check_vocal_clash` reports a severe clash: both
maximal intensities are 3, so the combined intensity is at least 5. -/
theorem clash_severe (va vb : VocalsData) (tDur : ℚ)
    (hav : va.has_vocals = true) (hbv : vb.has_vocals = true)
    (hA : fullInWindow va tDur) (hB : fullInWindow vb tDur) :
    check_vocal_clash va vb 0 tDur tDur = ⟨true, "severe"⟩ := by
  obtain ⟨sa, hsa, hfa, hlta, hposa⟩ := hA
  obtain ⟨sb, hsb, hfb, hltb, hposb⟩ := hB
  unfold check_vocal_clash
  rw [if_neg (by simp [hav, hbv])]
  dsimp only
  have hmemA : sa ∈ va.sections.filter (fun s =>
      decide (s.startS < 0 + tDur) && decide ((0:ℚ) < s.endS)) := by
    rw [List.mem_filter]
    refine ⟨hsa, ?_⟩
    simp only [Bool.and_eq_true, decide_eq_true_eq]
    exact ⟨by rwa [zero_add], hposa⟩
  have hmemB : sb ∈ vb.sections.filter (fun s =>
      decide (s.startS < tDur) && decide ((0:ℚ) < s.endS)) := by
    rw [List.mem_filter]
    refine ⟨hsb, ?_⟩
    simp only [Bool.and_eq_true, decide_eq_true_eq]
    exact ⟨hltb, hposb⟩
  rw [if_pos ⟨List.ne_nil_of_mem hmemA, List.ne_nil_of_mem hmemB⟩]
  have h3A : 3 ≤ ((va.sections.filter (fun s =>
      decide (s.startS < 0 + tDur) && decide ((0:ℚ) < s.endS))).map
      (fun s => intensity_to_score s.intensity)).foldr max 0 := by
    apply le_foldr_max
    refine List.mem_map.mpr ⟨sa, hmemA, ?_⟩
    rw [hfa]
    rfl
  have h3B : 3 ≤ ((vb.sections.filter (fun s =>
      decide (s.startS < tDur) && decide ((0:ℚ) < s.endS))).map
      (fun s => intensity_to_score s.intensity)).foldr max 0 := by
    apply le_foldr_max
    refine List.mem_map.mpr ⟨sb, hmemB, ?_⟩
    rw [hfb]
    rfl
  split
  · rfl
  · omega

end Vocal

/-- Supporting result for C2, covering only the LLM-plan path's
check-and-realize step (`_check_vocal_clash_and_adjust`, invoked solely
from `generate_draft_transition_with_plan`, line 1744): for every pair of
vocal analyses `(a, b)` whose FULL-intensity vocal sections both overlap
the transition window, that step either returns mode HARD_CUT (the vocal
check forces a downgrade) or strictly shortens the transition so that the
FULL-vocal overlap inside the realized window is zero — the shortened
window fits inside track B's vocal-free intro, which contains no vocal
section at all.  The hypotheses are the invariants `detect_vocals`
guarantees for its output: no sections when `has_vocals` is false,
sections sorted by start, and every section a non-empty span of
nonnegative time.  The claim itself fails, because the fallback stem
rendering path never invokes this step; see the C2 theorem below. -/
theorem vocal_clash_resolved (va vb : Vocal.VocalsData) (durA durB tDur bpm : ℚ)
    (hbpm : 0 < bpm)
    (hacons : va.has_vocals = false → va.sections = [])
    (hbcons : vb.has_vocals = false → vb.sections = [])
    (hbpos : ∀ s ∈ vb.sections, 0 ≤ s.startS ∧ 0 < s.endS)
    (hbsorted : ∀ s0 s, vb.sections.head? = some s0 → s ∈ vb.sections →
      s0.startS ≤ s.startS)
    (hA : Vocal.fullInWindow va tDur) (hB : Vocal.fullInWindow vb tDur) :
    (Vocal.realizeVocalCheck
      (Vocal.check_vocal_clash_and_adjust
        (Vocal.analyze_track_enriched va durA)
        (Vocal.analyze_track_enriched vb durB) 0 tDur bpm) tDur).1 =
        Planner.TransitionType.HARD_CUT ∨
    ((Vocal.realizeVocalCheck
      (Vocal.check_vocal_clash_and_adjust
        (Vocal.analyze_track_enriched va durA)
        (Vocal.analyze_track_enriched vb durB) 0 tDur bpm) tDur).2 < tDur ∧
     ¬(Vocal.fullInWindow va
        (Vocal.realizeVocalCheck
          (Vocal.check_vocal_clash_and_adjust
            (Vocal.analyze_track_enriched va durA)
            (Vocal.analyze_track_enriched vb durB) 0 tDur bpm) tDur).2 ∧
       Vocal.fullInWindow vb
        (Vocal.realizeVocalCheck
          (Vocal.check_vocal_clash_and_adjust
            (Vocal.analyze_track_enriched va durA)
            (Vocal.analyze_track_enriched vb durB) 0 tDur bpm) tDur).2)) := by
  have hav : va.has_vocals = true := by
    cases h : va.has_vocals
    · obtain ⟨s, hs, -⟩ := hA
      rw [hacons h] at hs
      cases hs
    · rfl
  have hbv : vb.has_vocals = true := by
    cases h : vb.has_vocals
    · obtain ⟨s, hs, -⟩ := hB
      rw [hbcons h] at hs
      cases hs
    · rfl
  obtain ⟨sb, hsb, hfb, hltb, hposb⟩ := hB
  have hB' : Vocal.fullInWindow vb tDur := ⟨sb, hsb, hfb, hltb, hposb⟩
  obtain ⟨s0, rest, hsec⟩ : ∃ s0 rest, vb.sections = s0 :: rest := by
    cases hs : vb.sections with
    | nil => rw [hs] at hsb; cases hsb
    | cons a t => exact ⟨a, t, rfl⟩
  have hs0head : vb.sections.head? = some s0 := by rw [hsec]; rfl
  have hs0le : s0.startS ≤ sb.startS := hbsorted s0 sb hs0head hsb
  have hs0lt : s0.startS < tDur := lt_of_le_of_lt hs0le hltb
  have hs0nn : 0 ≤ s0.startS :=
    (hbpos s0 (by rw [hsec]; exact List.mem_cons_self _ _)).1
  have hbar : (0:ℚ) < 60 / bpm * 4 := by positivity
  have hib := Vocal.intro_b_char vb durB hbv s0 rest hsec hbpos
  have hnofull : ∀ w : ℚ, w ≤ s0.startS → ¬ Vocal.fullInWindow vb w := by
    intro w hw hfw
    obtain ⟨s, hs, -, hslt, -⟩ := hfw
    have := hbsorted s0 s hs0head hs
    linarith
  have hibnn : 0 ≤ Vocal.intro_b_of
      (Vocal.analyze_track_enriched vb durB).vocal_free_regions := by
    rw [hib]
    split
    · exact hs0nn
    · exact le_refl 0
  have hible : Vocal.intro_b_of
      (Vocal.analyze_track_enriched vb durB).vocal_free_regions ≤ s0.startS := by
    rw [hib]
    split
    · exact le_refl _
    · exact hs0nn
  unfold Vocal.check_vocal_clash_and_adjust
  dsimp only
  split
  · -- the step-3 early return is unreachable: the vocal-free intro would
    -- swallow the whole window, against the FULL section of B inside it
    rename_i hcond
    exact absurd hB' (hnofull tDur (le_trans hcond.2 hible))
  · split
    · -- the step-3 shorten branch: the realized window now fits inside
      -- B's vocal-free intro
      rename_i hno1 hcond
      have hadj := (Vocal.step3_adjust_le hibnn hbar hcond.2).2
      have hadjlt : max ((((pyInt (Vocal.intro_b_of
          (Vocal.analyze_track_enriched vb durB).vocal_free_regions /
            (60 / bpm * 4)) : ℤ) : ℚ) - 1) * (60 / bpm * 4))
          (4 * (60 / bpm * 4)) < tDur :=
        lt_of_le_of_lt (le_trans hadj hible) hs0lt
      rw [Vocal.realize_not_forced _ _ rfl]
      dsimp only
      rw [if_pos hadjlt]
      right
      refine ⟨hadjlt, ?_⟩
      rintro ⟨-, hBfull⟩
      exact hnofull _ (le_trans hadj hible) hBfull
    · -- steps 4–5: severe clash, no safe sub-window, forced HARD_CUT
      rename_i hno1 hno2
      unfold Vocal.vocal_steps_4_5
      dsimp only
      rw [if_neg (show ¬((Vocal.analyze_track_enriched va durA).has_vocals
        = false) by rw [Vocal.analyze_has, hav]; simp)]
      rw [Vocal.analyze_vocals, Vocal.analyze_vocals,
        Vocal.clash_severe va vb tDur hav hbv hA hB']
      dsimp only
      rw [if_pos rfl, if_pos rfl]
      have hiblt : Vocal.intro_b_of
          (Vocal.analyze_track_enriched vb durB).vocal_free_regions <
          4 * (60 / bpm * 4) :=
        Vocal.intro_lt_of_no_step3 hibnn hbar hno2
      split
      · -- the supposed safe window is min(intro_b, outro_a)
        split
        · -- a 4-bar safe window cannot exist: intro_b is under 4 bars
          rename_i hle
          exfalso
          have hminle := min_le_left (Vocal.intro_b_of
            (Vocal.analyze_track_enriched vb durB).vocal_free_regions)
            (Vocal.outro_a_of
              (Vocal.analyze_track_enriched va durA).vocal_free_regions)
          linarith
        · rw [Vocal.realize_forced _ _ rfl]
          left
          rfl
      · -- min_safe = 0, under the 4-bar minimum
        split
        · rename_i hle
          exfalso
          linarith
        · rw [Vocal.realize_forced _ _ rfl]
          left
          rfl

/-- Witness for C2: both tracks carry a FULL vocal section covering the
30 s transition window (B from second 1, so its vocal-free intro is under
the 4 s minimum) at 120 BPM. -/
theorem vocal_clash_resolved_witness :
    (Vocal.realizeVocalCheck
      (Vocal.check_vocal_clash_and_adjust
        (Vocal.analyze_track_enriched ⟨true, [⟨0, 30, .FULL⟩]⟩ 30)
        (Vocal.analyze_track_enriched ⟨true, [⟨1, 30, .FULL⟩]⟩ 30) 0 30 120) 30).1 =
        Planner.TransitionType.HARD_CUT ∨
    ((Vocal.realizeVocalCheck
      (Vocal.check_vocal_clash_and_adjust
        (Vocal.analyze_track_enriched ⟨true, [⟨0, 30, .FULL⟩]⟩ 30)
        (Vocal.analyze_track_enriched ⟨true, [⟨1, 30, .FULL⟩]⟩ 30) 0 30 120) 30).2 < 30 ∧
     ¬(Vocal.fullInWindow ⟨true, [⟨0, 30, .FULL⟩]⟩
        (Vocal.realizeVocalCheck
          (Vocal.check_vocal_clash_and_adjust
            (Vocal.analyze_track_enriched ⟨true, [⟨0, 30, .FULL⟩]⟩ 30)
            (Vocal.analyze_track_enriched ⟨true, [⟨1, 30, .FULL⟩]⟩ 30) 0 30 120) 30).2 ∧
       Vocal.fullInWindow ⟨true, [⟨1, 30, .FULL⟩]⟩
        (Vocal.realizeVocalCheck
          (Vocal.check_vocal_clash_and_adjust
            (Vocal.analyze_track_enriched ⟨true, [⟨0, 30, .FULL⟩]⟩ 30)
            (Vocal.analyze_track_enriched ⟨true, [⟨1, 30, .FULL⟩]⟩ 30) 0 30 120) 30).2)) :=
  vocal_clash_resolved ⟨true, [⟨0, 30, .FULL⟩]⟩ ⟨true, [⟨1, 30, .FULL⟩]⟩ 30 30 30 120
    (by norm_num)
    (by simp)
    (by simp)
    (by intro s hs; simp only [List.mem_singleton] at hs; subst hs
        exact ⟨by norm_num, by norm_num⟩)
    (by intro s0 s h0 hs
        simp only [List.head?, Option.some.injEq] at h0
        simp only [List.mem_singleton] at hs
        subst h0; subst hs; exact le_refl _)
    ⟨⟨0, 30, .FULL⟩, by simp, rfl, by norm_num, by norm_num⟩
    ⟨⟨1, 30, .FULL⟩, by simp, rfl, by norm_num, by norm_num⟩

namespace StemPath

theorem rmsSq_nonneg (x : ℕ → ℚ) (w i : ℕ) : 0 ≤ rmsSq x w i := by
  unfold rmsSq
  apply div_nonneg
  · exact Finset.sum_nonneg (fun j _ => sq_nonneg _)
  · positivity

theorem rmsSq_const {x : ℕ → ℚ} {w i : ℕ} (hw : 0 < w) (c : ℚ)
    (h : ∀ j, j < w → x (w * i + j) = c) : rmsSq x w i = c^2 := by
  unfold rmsSq
  have hsum : ∑ j in Finset.range w, (x (w * i + j))^2 =
      ∑ _j in Finset.range w, c^2 :=
    Finset.sum_congr rfl (fun j hj => by rw [h j (Finset.mem_range.mp hj)])
  rw [hsum, Finset.sum_const, Finset.card_range, nsmul_eq_mul]
  field_simp

theorem rmsSq_le_one {x : ℕ → ℚ} {w i : ℕ} (hw : 0 < w)
    (h : ∀ j, j < w → (x (w * i + j))^2 ≤ 1) : rmsSq x w i ≤ 1 := by
  unfold rmsSq
  rw [div_le_one (by positivity : (0:ℚ) < (w:ℚ))]
  calc ∑ j in Finset.range w, (x (w * i + j))^2
      ≤ ∑ _j in Finset.range w, (1:ℚ) :=
        Finset.sum_le_sum (fun j hj => h j (Finset.mem_range.mp hj))
    _ = w := by simp

theorem vmax_le {f : ℕ → ℚ} {c : ℚ} (hc : 0 ≤ c) :
    ∀ n : ℕ, (∀ i, i < n → f i ≤ c) → vmax f n ≤ c := by
  intro n
  induction n with
  | zero => intro _; exact hc
  | succ m ih =>
    intro h
    unfold vmax
    exact max_le (ih (fun i hi => h i (Nat.lt_succ_of_lt hi)))
      (h m (Nat.lt_succ_self m))

theorem curve_a_bass_mem (p1 p2 p3 p4 : ℤ) (total : ℕ) (i : ℕ)
    (hi : i < total) :
    0 ≤ (generate_curves_track_a_spec p1 p2 p3 p4 total).bass i ∧
    (generate_curves_track_a_spec p1 p2 p3 p4 total).bass i ≤ 1 := by
  unfold generate_curves_track_a_spec
  dsimp only
  split
  · rename_i h
    exact linspace_mem_unitInterval (by norm_num) (by norm_num) (by norm_num)
      (by norm_num) (by omega)
  · split
    · constructor <;> norm_num
    · split
      · rename_i h1 h2 h3
        exact linspace_mem_unitInterval (by norm_num) (by norm_num)
          (by norm_num) (by norm_num) (by omega)
      · constructor <;> norm_num

theorem curve_b_bass_mem (p1 p2 p3 p4 : ℤ) (total : ℕ) (i : ℕ) :
    0 ≤ (generate_curves_track_b_spec p1 p2 p3 p4 total).bass i ∧
    (generate_curves_track_b_spec p1 p2 p3 p4 total).bass i ≤ 1 := by
  unfold generate_curves_track_b_spec
  dsimp only
  split
  · constructor <;> norm_num
  · split
    · rename_i h1 h2
      exact linspace_mem_unitInterval (by norm_num) (by norm_num) (by norm_num)
        (by norm_num) (by omega)
    · constructor <;> norm_num

/-- The quantitative core of C1: for signals whose squared window RMS is
exactly `1/25` and `1` on the 80 windows covering phase 3 of the default
16-bar render and bounded by 1 everywhere, the bass-swap validator
rejects — the overlap lasts at least 8 s = 16 beats at 120 BPM, far over
the 2-beat limit. -/
theorem validator_rejects_phase3_overlap (A B : ℕ → ℚ)
    (hA1 : ∀ i, 160 ≤ i → i < 240 → rmsSq A 4410 i = 1/25)
    (hB1 : ∀ i, 160 ≤ i → i < 240 → rmsSq B 4410 i = 1)
    (hAle : ∀ i, i < 320 → rmsSq A 4410 i ≤ 1)
    (hBle : ∀ i, i < 320 → rmsSq B 4410 i ≤ 1) :
    validate_bass_swap_valid A B 1411200 1411200 44100 120 2 = false := by
  unfold validate_bass_swap_valid
  dsimp only
  have hw : (pyInt ((1/10 : ℚ) * ((44100 : ℕ) : ℚ))).toNat = 4410 := by
    norm_num [pyInt]
    rfl
  rw [hw]
  have hn : (1411200 : ℕ) / 4410 = 320 := by norm_num
  rw [hn, min_self]
  have hMle : max (max (vmax (rmsSq A 4410) 320) (vmax (rmsSq B 4410) 320))
      ((1/1000 : ℚ)^2) ≤ 1 := by
    apply max_le
    · exact max_le (vmax_le (by norm_num) 320 hAle)
        (vmax_le (by norm_num) 320 hBle)
    · norm_num
  have hsub : Finset.Ico 160 240 ⊆ (Finset.range 320).filter (fun i =>
      (1/100 : ℚ) * max (max (vmax (rmsSq A 4410) 320)
        (vmax (rmsSq B 4410) 320)) ((1/1000 : ℚ)^2) < rmsSq A 4410 i ∧
      (1/100 : ℚ) * max (max (vmax (rmsSq A 4410) 320)
        (vmax (rmsSq B 4410) 320)) ((1/1000 : ℚ)^2) < rmsSq B 4410 i) := by
    intro i hi
    rw [Finset.mem_Ico] at hi
    rw [Finset.mem_filter]
    refine ⟨Finset.mem_range.mpr (by omega), ?_, ?_⟩
    · rw [hA1 i hi.1 hi.2]
      linarith
    · rw [hB1 i hi.1 hi.2]
      linarith
  have hcard : 80 ≤ ((Finset.range 320).filter (fun i =>
      (1/100 : ℚ) * max (max (vmax (rmsSq A 4410) 320)
        (vmax (rmsSq B 4410) 320)) ((1/1000 : ℚ)^2) < rmsSq A 4410 i ∧
      (1/100 : ℚ) * max (max (vmax (rmsSq A 4410) 320)
        (vmax (rmsSq B 4410) 320)) ((1/1000 : ℚ)^2) < rmsSq B 4410 i)).card := by
    calc 80 = (Finset.Ico 160 240).card := by simp
      _ ≤ _ := Finset.card_le_card hsub
  apply decide_eq_false
  intro hle
  have hcQ : (80 : ℚ) ≤ (((Finset.range 320).filter (fun i =>
      (1/100 : ℚ) * max (max (vmax (rmsSq A 4410) 320)
        (vmax (rmsSq B 4410) 320)) ((1/1000 : ℚ)^2) < rmsSq A 4410 i ∧
      (1/100 : ℚ) * max (max (vmax (rmsSq A 4410) 320)
        (vmax (rmsSq B 4410) 320)) ((1/1000 : ℚ)^2) < rmsSq B 4410 i)).card : ℚ) := by
    exact_mod_cast hcard
  set c : ℚ := (((Finset.range 320).filter (fun i =>
      (1/100 : ℚ) * max (max (vmax (rmsSq A 4410) 320)
        (vmax (rmsSq B 4410) 320)) ((1/1000 : ℚ)^2) < rmsSq A 4410 i ∧
      (1/100 : ℚ) * max (max (vmax (rmsSq A 4410) 320)
        (vmax (rmsSq B 4410) 320)) ((1/1000 : ℚ)^2) < rmsSq B 4410 i)).card : ℚ)
  have heq : c * ((4410 : ℕ) : ℚ) / ((44100 : ℕ) : ℚ) / (60 / 120) = c / 5 := by
    norm_num
    ring
  rw [heq] at hle
  linarith

end StemPath

/-- C1: the bass-swap rule FAILS on the stem rendering path.  For a
16-bar STEM_BLEND at 120 BPM (1411200 samples, the bar count the
renderer itself picks for average energy 0.9 via
`calculate_transition_bars`), with both bass stems at constant full
scale, the four-phase curves of `_generate_curves_track_{a,b}_spec` keep
track A's bass at 1/5 and track B's bass at 1 during the whole third
phase (8 s = 16 beats), so `validate_bass_swap` finds ≥ 80 overlapping
100 ms windows above the 10 % RMS threshold and returns invalid — the
non-LLM stem path never calls the validator nor any bass swap, and the
LLM path only logs the failure, so this output is rendered as-is. -/
theorem stem_path_bass_rule_violated :
    StemPath.calculate_transition_bars (9/10) = 16 ∧
    StemPath.validate_bass_swap_valid
      (StemPath.four_phase_bass_a (fun _ => 1) 1411200 120 16)
      (StemPath.four_phase_bass_b (fun _ => 1) 1411200 120 16)
      1411200 1411200 44100 120 2 = false := by
  have hps : StemPath.phase_samples_calc 1411200 120 16 =
      (352800, 352800, 352800, 352800) := by
    unfold StemPath.phase_samples_calc StemPath.bars_to_samples
    norm_num [pyInt]
  have hsigA : ∀ m : ℕ, StemPath.four_phase_bass_a (fun _ => 1) 1411200 120 16 m =
      (StemPath.generate_curves_track_a_spec 352800 352800 352800 352800 1411200).bass m := by
    intro m
    unfold StemPath.four_phase_bass_a
    dsimp only
    rw [hps, one_mul]
  have hsigB : ∀ m : ℕ, StemPath.four_phase_bass_b (fun _ => 1) 1411200 120 16 m =
      (StemPath.generate_curves_track_b_spec 352800 352800 352800 352800 1411200).bass m := by
    intro m
    unfold StemPath.four_phase_bass_b
    dsimp only
    rw [hps, one_mul]
  have hAval : ∀ m : ℕ, 705600 ≤ m → m < 1058400 →
      (StemPath.generate_curves_track_a_spec 352800 352800 352800 352800 1411200).bass m = 1/5 := by
    intro m h1 h2
    unfold StemPath.generate_curves_track_a_spec
    dsimp only
    split
    · rename_i h
      exact absurd h.2 (by omega)
    · split
      · rfl
      · rename_i _ hc
        exfalso
        apply hc
        constructor <;> omega
  have hBval : ∀ m : ℕ, 705600 ≤ m →
      (StemPath.generate_curves_track_b_spec 352800 352800 352800 352800 1411200).bass m = 1 := by
    intro m h1
    unfold StemPath.generate_curves_track_b_spec
    dsimp only
    split
    · rfl
    · rename_i hc
      exact absurd (by omega) hc
  have hA1 : ∀ i, 160 ≤ i → i < 240 →
      StemPath.rmsSq (StemPath.four_phase_bass_a (fun _ => 1) 1411200 120 16) 4410 i = 1/25 := by
    intro i hi1 hi2
    have hpt : ∀ j, j < 4410 →
        StemPath.four_phase_bass_a (fun _ => 1) 1411200 120 16 (4410 * i + j) = 1/5 := by
      intro j hj
      rw [hsigA]
      exact hAval _ (by omega) (by omega)
    rw [StemPath.rmsSq_const (by norm_num) (1/5) hpt]
    norm_num
  have hB1 : ∀ i, 160 ≤ i → i < 240 →
      StemPath.rmsSq (StemPath.four_phase_bass_b (fun _ => 1) 1411200 120 16) 4410 i = 1 := by
    intro i hi1 hi2
    have hpt : ∀ j, j < 4410 →
        StemPath.four_phase_bass_b (fun _ => 1) 1411200 120 16 (4410 * i + j) = 1 := by
      intro j hj
      rw [hsigB]
      exact hBval _ (by omega)
    rw [StemPath.rmsSq_const (by norm_num) 1 hpt]
    norm_num
  have hAle : ∀ i, i < 320 →
      StemPath.rmsSq (StemPath.four_phase_bass_a (fun _ => 1) 1411200 120 16) 4410 i ≤ 1 := by
    intro i hi
    apply StemPath.rmsSq_le_one (by norm_num)
    intro j hj
    rw [hsigA]
    have hmem := StemPath.curve_a_bass_mem 352800 352800 352800 352800 1411200
      (4410 * i + j) (by omega)
    nlinarith [hmem.1, hmem.2]
  have hBle : ∀ i, i < 320 →
      StemPath.rmsSq (StemPath.four_phase_bass_b (fun _ => 1) 1411200 120 16) 4410 i ≤ 1 := by
    intro i hi
    apply StemPath.rmsSq_le_one (by norm_num)
    intro j hj
    rw [hsigB]
    have hmem := StemPath.curve_b_bass_mem 352800 352800 352800 352800 1411200
      (4410 * i + j)
    nlinarith [hmem.1, hmem.2]
  exact ⟨by norm_num [StemPath.calculate_transition_bars],
    StemPath.validator_rejects_phase3_overlap _ _ hA1 hB1 hAle hBle⟩

/-- C5.  For every source BPM > 0 and target BPM, the time-stretch ratio
actually applied to the B-segment lies in `[0.92, 1.08]`: `stretch_to_bpm`
clamps the computed ratio into that interval before stretching, and the
returned `actual_bpm` equals `source_bpm` times the clamped ratio. -/
theorem stretch_ratio_always_clamped (source_bpm target_bpm : ℚ)
    (_hpos : 0 < source_bpm) :
    Beatmatch.MIN_STRETCH_RATIO ≤ (Beatmatch.stretch_to_bpm source_bpm target_bpm).1 ∧
    (Beatmatch.stretch_to_bpm source_bpm target_bpm).1 ≤ Beatmatch.MAX_STRETCH_RATIO ∧
    (Beatmatch.stretch_to_bpm source_bpm target_bpm).2 =
      source_bpm * (Beatmatch.stretch_to_bpm source_bpm target_bpm).1 := by
  unfold Beatmatch.stretch_to_bpm Beatmatch.time_stretch_clamp
  refine ⟨le_max_left _ _, ?_, rfl⟩
  have h : min Beatmatch.MAX_STRETCH_RATIO (Beatmatch.calculate_stretch_ratio source_bpm target_bpm).1
      ≤ Beatmatch.MAX_STRETCH_RATIO := min_le_left _ _
  have hmm : Beatmatch.MIN_STRETCH_RATIO ≤ Beatmatch.MAX_STRETCH_RATIO := by
    unfold Beatmatch.MIN_STRETCH_RATIO Beatmatch.MAX_STRETCH_RATIO; norm_num
  exact max_le hmm h

/-- Witness for C5 at `source_bpm = 126`, `target_bpm = 120`. -/
theorem stretch_ratio_always_clamped_witness :
    (0 : ℚ) < 126 ∧
    ( Beatmatch.MIN_STRETCH_RATIO ≤ (Beatmatch.stretch_to_bpm 126 120).1 ∧
     (Beatmatch.stretch_to_bpm 126 120).1 ≤ Beatmatch.MAX_STRETCH_RATIO ∧
     (Beatmatch.stretch_to_bpm 126 120).2 =
       126 * (Beatmatch.stretch_to_bpm 126 120).1) :=
  ⟨by norm_num, stretch_ratio_always_clamped 126 120 (by norm_num)⟩

namespace MixGen

theorem calc_go_chain' : ∀ (rest : List TrackData) (first : Bool) (pos : ℕ) (t : TrackData),
    NondegChain first (t :: rest) →
    calc_segs_go first pos (t :: rest) =
      ⟨pos, .SOLO, some t.id, none, soloStart first t, soloEnd rest.isEmpty t,
        soloEnd rest.isEmpty t - soloStart first t⟩ :: chainAfter (pos + 1) t rest := by
  intro rest
  induction rest with
  | nil =>
    intro first pos t hnd
    have hnd' : soloStart first t < soloEnd true t := hnd
    unfold calc_segs_go
    dsimp only
    simp only [List.isEmpty_nil]
    rw [if_pos hnd']
    rfl
  | cons next rest2 ih =>
    intro first pos t hnd
    obtain ⟨h1, h2⟩ := hnd
    unfold calc_segs_go
    dsimp only
    simp only [List.isEmpty_cons]
    rw [if_pos h1]
    simp only [List.length_cons, List.length_nil, List.cons_append, List.nil_append]
    rw [ih false (pos + 2) next h2]
    rfl

theorem chainAfter_take_count : ∀ (rest : List TrackData) (j pos : ℕ) (t : TrackData),
    j ≤ rest.length →
    (((chainAfter pos t rest).take (2 * j)).filter
      (fun x => x.type == SegType.SOLO)).length = j := by
  intro rest
  induction rest with
  | nil =>
    intro j pos t hj
    have hz : j = 0 := Nat.le_zero.mp hj
    subst hz
    simp
  | cons next rest2 ih =>
    intro j pos t hj
    cases j with
    | zero => simp
    | succ j' =>
      have h2 : 2 * (j' + 1) = 2 * j' + 1 + 1 := by ring
      rw [h2]
      simp only [chainAfter, List.take_succ_cons, List.filter_cons]
      norm_num +decide
      rw [ih j' (pos + 2) next (by simp at hj; omega)]

theorem getD_of_drop : ∀ (k : ℕ) (l : List TrackData) (t : TrackData) (rest : List TrackData),
    l.drop k = t :: rest → l.getD k dummyTrack = t := by
  intro k
  induction k with
  | zero =>
    intro l t rest h
    simp only [List.drop_zero] at h
    rw [h]
    rfl
  | succ k' ih =>
    intro l t rest h
    cases l with
    | nil => simp at h
    | cons a l' =>
      rw [List.drop_succ_cons] at h
      rw [List.getD_cons_succ]
      exact ih l' t rest h

theorem drop_succ_of_drop (l : List TrackData) (k : ℕ) (t : TrackData)
    (rest : List TrackData) (h : l.drop k = t :: rest) : l.drop (k + 1) = rest := by
  have h1 : l.drop (k + 1) = (l.drop k).drop 1 := by
    rw [List.drop_drop]
  rw [h1, h]
  rfl

theorem assemble_go_nil (tracks : List TrackData)
    (render : TrackData → TrackData → TransitionResult)
    (orig : List SegmentInfo) (acc : List OutSeg) :
    assemble_go tracks render orig [] acc = acc.reverse := by
  simp [assemble_go]

theorem assemble_go_cons_solo (tracks : List TrackData)
    (render : TrackData → TrackData → TransitionResult)
    (orig : List SegmentInfo) (seg : SegmentInfo) (rest : List SegmentInfo)
    (acc : List OutSeg) (h : ¬ seg.type = SegType.TRANSITION) :
    assemble_go tracks render orig (seg :: rest) acc =
      assemble_go tracks render orig rest
        (⟨seg.position, seg.type, seg.track_id, seg.transition_id,
          seg.start_ms, seg.end_ms, seg.duration_ms⟩ :: acc) := by
  conv_lhs => rw [assemble_go.eq_def]
  dsimp only
  rw [if_neg h]

theorem assemble_go_cons_trans (tracks : List TrackData)
    (render : TrackData → TrackData → TransitionResult)
    (orig : List SegmentInfo) (seg : SegmentInfo) (rest : List SegmentInfo)
    (acc : List OutSeg) (c : ℕ) (h : seg.type = SegType.TRANSITION)
    (hc : ((orig.take seg.position).filter (fun x => x.type == SegType.SOLO)).length = c)
    (h1 : 1 ≤ c) (h2 : c < tracks.length) :
    assemble_go tracks render orig (seg :: rest) acc =
      assemble_go tracks render orig
        (updateNext (tracks.getD c dummyTrack).id
          (render (tracks.getD (c - 1) dummyTrack) (tracks.getD c dummyTrack)) rest)
        (⟨seg.position, seg.type, seg.track_id, seg.transition_id, seg.start_ms, seg.end_ms,
          (render (tracks.getD (c - 1) dummyTrack) (tracks.getD c dummyTrack)).duration_ms⟩ ::
         updatePrev (tracks.getD (c - 1) dummyTrack).id
          (render (tracks.getD (c - 1) dummyTrack) (tracks.getD c dummyTrack)) acc) := by
  conv_lhs => rw [assemble_go.eq_def]
  dsimp only
  rw [hc, if_pos h, if_pos h1, if_pos h2]

theorem assemble_go_chain (tracks : List TrackData)
    (render : TrackData → TrackData → TransitionResult) (orig : List SegmentInfo)
    (hcount : ∀ j, j + 1 < tracks.length →
      ((orig.take (2 * j + 1)).filter (fun x => x.type == SegType.SOLO)).length = j + 1) :
    ∀ (rest : List TrackData) (k : ℕ) (t : TrackData) (s d : ℤ) (acc : List OutSeg),
      tracks.drop k = t :: rest →
      assemble_go tracks render orig
        (⟨2 * k, .SOLO, some t.id, none, s, soloEnd rest.isEmpty t, d⟩ ::
          chainAfter (2 * k + 1) t rest) acc
      = acc.reverse ++ outChain render (2 * k) s d (t :: rest) := by
  intro rest
  induction rest with
  | nil =>
    intro k t s d acc _hdrop
    rw [assemble_go_cons_solo _ _ _ _ _ _ (by simp)]
    simp only [chainAfter]
    rw [assemble_go_nil]
    simp [outChain, soloEnd, List.reverse_cons]
  | cons next rest2 ih =>
    intro k t s d acc hdrop
    have hlen : k + 1 < tracks.length := by
      have hl := congrArg List.length hdrop
      simp only [List.length_drop, List.length_cons] at hl
      omega
    have hga : tracks.getD k dummyTrack = t := getD_of_drop k tracks t _ hdrop
    have hdrop2 : tracks.drop (k + 1) = next :: rest2 := drop_succ_of_drop _ _ _ _ hdrop
    have hgb : tracks.getD (k + 1) dummyTrack = next := getD_of_drop (k + 1) tracks next _ hdrop2
    rw [assemble_go_cons_solo _ _ _ _ _ _ (by simp)]
    simp only [chainAfter]
    rw [assemble_go_cons_trans _ _ _ _ _ _ (k + 1) rfl (hcount k hlen)
      (by omega) hlen]
    simp only [Nat.add_sub_cancel, hga, hgb]
    simp only [updateNext, updatePrev, and_self, eq_self_iff_true, if_true]
    have harith1 : 2 * k + 1 + 1 = 2 * (k + 1) := by ring
    have harith2 : 2 * k + 1 + 2 = 2 * (k + 1) + 1 := by ring
    rw [harith1, harith2]  -- positions inside the lists; may need care
    rw [ih (k + 1) next (render t next).track_b_start_ms
      (max 0 (soloEnd rest2.isEmpty next - (render t next).track_b_start_ms))
      _ hdrop2]
    simp [outChain, List.reverse_cons, List.append_assoc, Nat.mul_succ]

theorem outChain_head (render : TrackData → TrackData → TransitionResult)
    (ts : List TrackData) (u : TrackData) (pos : ℕ) (s d : ℤ) :
    ∃ hd tl, outChain render pos s d (u :: ts) = hd :: tl ∧
      hd.type = SegType.SOLO ∧ hd.trackId = some u.id ∧ hd.startMs = s := by
  cases ts with
  | nil => exact ⟨_, _, rfl, rfl, rfl, rfl⟩
  | cons v ts2 => exact ⟨_, _, rfl, rfl, rfl, rfl⟩

theorem outChain_triple (render : TrackData → TrackData → TransitionResult) :
    ∀ (ts : List TrackData) (pos : ℕ) (s d : ℤ) (i : ℕ) (sA T sB : OutSeg),
    (outChain render pos s d ts)[i]? = some sA →
    (outChain render pos s d ts)[i + 1]? = some T →
    (outChain render pos s d ts)[i + 2]? = some sB →
    T.type = SegType.TRANSITION →
    ∃ k a b rest, ts.drop k = a :: b :: rest ∧
      T.transitionId = some (a.id, b.id) ∧
      sA.trackId = some a.id ∧ sB.trackId = some b.id ∧
      sA.endMs = (render a b).track_a_cut_ms ∧
      sB.startMs = (render a b).track_b_start_ms := by
  intro ts
  induction ts with
  | nil =>
    intro pos s d i sA T sB hA _hT _hB _htT
    simp [outChain] at hA
  | cons t ts' ih =>
    intro pos s d i sA T sB hA hT hB htT
    cases ts' with
    | nil =>
      simp only [outChain] at hT
      simp at hT
    | cons next rest2 =>
      cases i with
      | zero =>
        simp only [outChain, List.getElem?_cons_zero, List.getElem?_cons_succ,
          Option.some.injEq] at hA hT hB
        obtain ⟨hd, tl, heq, hty, htr, hst⟩ := outChain_head render rest2
          next (pos + 2) ((render t next).track_b_start_ms)
          (max 0 (soloEnd rest2.isEmpty next - (render t next).track_b_start_ms))
        rw [heq] at hB
        simp only [List.getElem?_cons_zero, Option.some.injEq] at hB
        refine ⟨0, t, next, rest2, by simp, ?_, ?_, ?_, ?_, ?_⟩
        · rw [← hT]
        · rw [← hA]
        · rw [← hB, htr]
        · rw [← hA]
        · rw [← hB, hst]
      | succ i' =>
        cases i' with
        | zero =>
          simp only [outChain, List.getElem?_cons_succ, List.getElem?_cons_zero,
            Option.some.injEq] at hT
          obtain ⟨hd, tl, heq, hty, htr, hst⟩ := outChain_head render rest2
            next (pos + 2) ((render t next).track_b_start_ms)
            (max 0 (soloEnd rest2.isEmpty next - (render t next).track_b_start_ms))
          rw [heq] at hT
          simp only [List.getElem?_cons_zero, Option.some.injEq] at hT
          rw [← hT, hty] at htT
          cases htT
        | succ i'' =>
          simp only [outChain, List.getElem?_cons_succ] at hA hT hB
          obtain ⟨k, a, b, rest, hdrop, h1, h2, h3, h4, h5⟩ :=
            ih (pos + 2) ((render t next).track_b_start_ms)
              (max 0 (soloEnd rest2.isEmpty next - (render t next).track_b_start_ms))
              i'' sA T sB hA hT hB htT
          exact ⟨k + 1, a, b, rest, by rw [List.drop_succ_cons]; exact hdrop,
            h1, h2, h3, h4, h5⟩

theorem cut_point_contract_nondegenerate (tracks : List TrackData)
    (render : TrackData → TrackData → TransitionResult)
    (h2 : 2 ≤ tracks.length) (hnd : NondegChain true tracks)
    (i : ℕ) (sA T sB : OutSeg)
    (hA : (generate_mix_segments tracks render)[i]? = some sA)
    (hT : (generate_mix_segments tracks render)[i + 1]? = some T)
    (hB : (generate_mix_segments tracks render)[i + 2]? = some sB)
    (htT : T.type = SegType.TRANSITION) :
    ∃ k a b rest, tracks.drop k = a :: b :: rest ∧
      T.transitionId = some (a.id, b.id) ∧
      sA.trackId = some a.id ∧ sB.trackId = some b.id ∧
      sA.endMs = (render a b).track_a_cut_ms ∧
      sB.startMs = (render a b).track_b_start_ms := by
  cases tracks with
  | nil => simp at h2
  | cons t0 ts =>
    cases ts with
    | nil => simp at h2
    | cons t1 rest0 =>
      have horig : calculate_segments (t0 :: t1 :: rest0) =
          ⟨0, .SOLO, some t0.id, none, soloStart true t0,
            soloEnd (t1 :: rest0).isEmpty t0,
            soloEnd (t1 :: rest0).isEmpty t0 - soloStart true t0⟩ ::
          chainAfter 1 t0 (t1 :: rest0) := by
        unfold calculate_segments
        rw [if_neg (by simp)]
        exact calc_go_chain' (t1 :: rest0) true 0 t0 hnd
      have hcount : ∀ j, j + 1 < (t0 :: t1 :: rest0).length →
          (((calculate_segments (t0 :: t1 :: rest0)).take (2 * j + 1)).filter
            (fun x => x.type == SegType.SOLO)).length = j + 1 := by
        intro j hj
        rw [horig, List.take_succ_cons, List.filter_cons]
        norm_num +decide
        rw [chainAfter_take_count (t1 :: rest0) j 1 t0 (by simp at hj ⊢; omega)]
      have hmain : generate_mix_segments (t0 :: t1 :: rest0) render =
          outChain render 0 (soloStart true t0)
            (soloEnd (t1 :: rest0).isEmpty t0 - soloStart true t0)
            (t0 :: t1 :: rest0) := by
        unfold generate_mix_segments
        simp only [List.isEmpty_cons] at horig ⊢
        have hchain := assemble_go_chain (t0 :: t1 :: rest0) render
          (calculate_segments (t0 :: t1 :: rest0)) hcount (t1 :: rest0) 0 t0
          (soloStart true t0)
          (soloEnd false t0 - soloStart true t0) []
          (by simp)
        norm_num at hchain
        rw [← horig] at hchain
        exact hchain
      rw [hmain] at hA hT hB
      exact outChain_triple render (t0 :: t1 :: rest0) 0 _ _ i sA T sB hA hT hB htT

end MixGen

/-- C4: the cut-point contract FAILS on the assembled segment list.
With three tracks where track 0's `outro_start_ms` is half a millisecond
(so `int()` truncates its solo to zero length and `calculate_segments`
drops it), the segment list is `[T01, S1, T12, S2]`.  The assembler
pairs each transition with tracks counted by preceding solos, so `T01`
is skipped entirely (zero preceding solos) and `T12` is rendered with
tracks `(0, 1)` instead of `(1, 2)`; both adjacent-solo guards then fail
and no bound is rewritten.  The adjacent triple `(S1, T12, S2)` keeps
`S1.endMs = 180000` and `S2.startMs = 10000`, while every render result
reports `track_a_cut_ms = 1234` and `track_b_start_ms = 777`. -/
theorem cut_point_contract_violated :
    ∃ sA T sB : MixGen.OutSeg,
      MixGen.generate_mix_segments MixGen.tracksEx MixGen.renderEx =
        [⟨0, .TRANSITION, none, some (0, 1), 0, 32000, 32000⟩, sA, T, sB] ∧
      sA.type = MixGen.SegType.SOLO ∧ T.type = MixGen.SegType.TRANSITION ∧
      sB.type = MixGen.SegType.SOLO ∧
      T.transitionId = some (1, 2) ∧
      (∀ a b : MixGen.TrackData,
        sA.endMs ≠ (MixGen.renderEx a b).track_a_cut_ms ∧
        sB.startMs ≠ (MixGen.renderEx a b).track_b_start_ms) := by
  have hsegs : MixGen.calculate_segments MixGen.tracksEx =
      [⟨0, .TRANSITION, none, some (0, 1), 0, 32000, 32000⟩,
       ⟨1, .SOLO, some 1, none, 10000, 180000, 170000⟩,
       ⟨2, .TRANSITION, none, some (1, 2), 0, 32000, 32000⟩,
       ⟨3, .SOLO, some 2, none, 10000, 200000, 190000⟩] := by
    norm_num [MixGen.calculate_segments, MixGen.calc_segs_go, MixGen.tracksEx,
      MixGen.soloStart, MixGen.soloEnd, MixGen.effectiveIntroEnd,
      MixGen.effectiveOutroStart, MixGen.get_default_intro_end_ms,
      MixGen.get_default_outro_start_ms, MixGen.transDurMs, MixGen.bars_to_ms,
      MixGen.calculate_transition_duration_bars, pyInt, List.isEmpty]
  have hout : MixGen.generate_mix_segments MixGen.tracksEx MixGen.renderEx =
      [⟨0, .TRANSITION, none, some (0, 1), 0, 32000, 32000⟩,
       ⟨1, .SOLO, some 1, none, 10000, 180000, 170000⟩,
       ⟨2, .TRANSITION, none, some (1, 2), 0, 32000, 32000⟩,
       ⟨3, .SOLO, some 2, none, 10000, 200000, 190000⟩] := by
    unfold MixGen.generate_mix_segments
    rw [hsegs]
    norm_num +decide [MixGen.assemble_go, MixGen.updatePrev, MixGen.updateNext,
      MixGen.renderEx, MixGen.tracksEx, MixGen.dummyTrack, List.getD,
      List.filter, List.take]
  refine ⟨⟨1, .SOLO, some 1, none, 10000, 180000, 170000⟩,
    ⟨2, .TRANSITION, none, some (1, 2), 0, 32000, 32000⟩,
    ⟨3, .SOLO, some 2, none, 10000, 200000, 190000⟩, hout, rfl, rfl, rfl, rfl, ?_⟩
  intro a b
  exact ⟨by norm_num [MixGen.renderEx], by norm_num [MixGen.renderEx]⟩

/-- C2: the vocal-clash rule FAILS on the fallback stem rendering path.
`check_vocal_clash` classifies a pair whose FULL vocal sections both
overlap a 30 s transition window as a severe clash (first conjunct), but
`generate_draft_transition` (`draft_transition_generator.py` lines
510–801) — the path used whenever key data is absent, and
unconditionally by `mix_generator.generate_transition_audio` and
`transition_generator.py` — never calls `_check_vocal_clash_and_adjust`:
it renders the full-length transition with
`_apply_four_phase_mixing_spec`.  For the renderer's own 16-bar phase
split at 120 BPM (second conjunct), those curves keep BOTH tracks' vocal
stems strictly audible at every sample in the interior of phase 3
(samples 705601–1058398, i.e. 352798 consecutive samples ≈ 8 s = 16
beats; A's vocals fade 1 → 0 while B's fade 0 → 1, third conjunct).  The
realized transition is therefore neither HARD_CUT nor shortened, and the
FULL-vocal overlap inside its window is nonzero — the claim fails on
these renders.  Only the LLM-plan path runs the check, and there it does
resolve the clash (`vocal_clash_resolved`), so the defect is the
unenforced fallback path, exactly parallel to the unenforced bass-swap
validator. -/
theorem stem_path_vocal_clash_unresolved :
    Vocal.check_vocal_clash ⟨true, [⟨0, 30, .FULL⟩]⟩ ⟨true, [⟨1, 30, .FULL⟩]⟩ 0 30 30 =
      ⟨true, "severe"⟩ ∧
    StemPath.phase_samples_calc 1411200 120 16 = (352800, 352800, 352800, 352800) ∧
    (∀ i : ℕ, 705600 < i → i < 1058399 →
      0 < (StemPath.generate_curves_track_a_spec 352800 352800 352800 352800 1411200).vocals i ∧
      0 < (StemPath.generate_curves_track_b_spec 352800 352800 352800 352800 1411200).vocals i) := by
  refine ⟨?_, ?_, ?_⟩
  · exact Vocal.clash_severe ⟨true, [⟨0, 30, .FULL⟩]⟩ ⟨true, [⟨1, 30, .FULL⟩]⟩ 30 rfl rfl
      ⟨⟨0, 30, .FULL⟩, by simp, rfl, by norm_num, by norm_num⟩
      ⟨⟨1, 30, .FULL⟩, by simp, rfl, by norm_num, by norm_num⟩
  · unfold StemPath.phase_samples_calc StemPath.bars_to_samples
    norm_num [pyInt]
  · intro i h1 h2
    have hk1 : 1 ≤ ((i : ℤ) - 705600).toNat := by omega
    have hk2 : ((i : ℤ) - 705600).toNat < 352799 := by omega
    constructor
    · unfold StemPath.generate_curves_track_a_spec
      dsimp only
      split
      · rename_i h
        exfalso
        omega
      · split
        · rename_i h h'
          rw [show ((352800 : ℤ)).toNat = 352800 from rfl]
          unfold linspace
          rw [if_neg (by norm_num : ¬ (352800 ≤ 1))]
          have hkq : ((((i : ℤ) - 705600).toNat : ℕ) : ℚ) < 352799 := by
            exact_mod_cast hk2
          push_cast
          linarith
        · norm_num
    · unfold StemPath.generate_curves_track_b_spec
      dsimp only
      split
      · norm_num
      · split
        · rename_i h h'
          rw [show ((352800 : ℤ)).toNat = 352800 from rfl]
          unfold linspace
          rw [if_neg (by norm_num : ¬ (352800 ≤ 1))]
          have hkq : (1 : ℚ) ≤ ((((i : ℤ) - 705600).toNat : ℕ) : ℚ) := by
            exact_mod_cast hk1
          push_cast
          linarith
        · rename_i h h'
          exfalso
          exact h' ⟨by norm_num, by omega, by omega⟩
